import Mathlib

/-!
# Verification of the hotel key-card record system (`src/hotel.py`)

Shallow embedding of the hotel CLI's core: the byte codec (`fix_bytes`,
`read_str`, the `pack`/`unpack` pairs of the four record kinds), the
fixed-slot binary store, and the `HotelService` domain operations.

Modelling conventions:
* A Python `str` text field is represented by its UTF-8 byte sequence
  (`List Nat`, one entry per byte).  The codec converts a string to bytes
  with `s.encode("utf-8", errors="ignore")` and back with
  `bytes.decode("utf-8", errors="ignore")`.  On the byte level, encoding
  the decoded result is the identity on well-formed UTF-8, while the
  `errors="ignore"` decode drops each maximal ill-formed subsequence
  (e.g. a multi-byte character split by truncation); `utf8Clean` models
  that cleaning pass, so `read_str` is strip-trailing-zeros followed by
  `utf8Clean`.
* Integer fields are packed with `struct` format `<I` (unsigned 32-bit,
  little-endian), which raises `struct.error` on out-of-range values;
  `pack` therefore returns an `Option`, `none` exactly when some integer
  field is not `< 2^32`.
* Files are byte lists; one store file per record kind.  The domain
  service is modelled over the decoded view of the stores: a store is the
  list of records its slots hold, `append` is list append, in-place
  `update` is `List.set`.  Wall-clock time (`now_ts()`) is passed in as an
  explicit `now` argument.
-/

namespace Hotel

/-- Little-endian 4-byte encoding of `n`, the payload of `struct` format `<I`
(defined unconditionally; `pack` guards the `n < 2^32` range check). -/
def u32le (n : Nat) : List Nat :=
  [n % 256, n / 256 % 256, n / 65536 % 256, n / 16777216 % 256]

/-- Little-endian decoding of a byte block (`struct` format `<I` on a 4-byte slice). -/
def decU32 (b : List Nat) : Nat :=
  b.foldr (fun x acc => x + 256 * acc) 0

/-- Python `fix_bytes` from hotel.py: truncate the UTF-8 bytes to `size`, then
left-justify (pad on the right) with zero bytes to exactly `size`. -/
def fix_bytes (s : List Nat) (size : Nat) : List Nat :=
  (s.take size) ++ List.replicate (size - (s.take size).length) 0

/-- Whether `b` is a UTF-8 continuation byte (`0x80`-`0xBF`). -/
def isCont (b : Nat) : Bool := 128 ≤ b && b ≤ 191

/-- Valid second byte of a multi-byte UTF-8 sequence with lead byte `b0`
(the restricted ranges exclude overlong forms, surrogates and values
above `U+10FFFF`, exactly as CPython's UTF-8 decoder does). -/
def utf8b1ok (b0 b1 : Nat) : Bool :=
  if b0 = 224 then 160 ≤ b1 && b1 ≤ 191
  else if b0 = 237 then 128 ≤ b1 && b1 ≤ 159
  else if b0 = 240 then 144 ≤ b1 && b1 ≤ 191
  else if b0 = 244 then 128 ≤ b1 && b1 ≤ 143
  else isCont b1

/-- Byte-level effect of `bytes.decode("utf-8", errors="ignore")` followed
by re-encoding: well-formed scalar sequences are kept verbatim and each
maximal ill-formed subpart is dropped (CPython skips exactly the maximal
subpart: the lead byte together with the continuation bytes that matched
so far). -/
def utf8Clean : List Nat → List Nat
  | [] => []
  | b0 :: rest =>
      if b0 ≤ 127 then b0 :: utf8Clean rest
      else if 194 ≤ b0 && b0 ≤ 223 then
        match rest with
        | [] => []
        | b1 :: rest2 =>
            if isCont b1 then b0 :: b1 :: utf8Clean rest2
            else utf8Clean (b1 :: rest2)
      else if 224 ≤ b0 && b0 ≤ 239 then
        match rest with
        | [] => []
        | b1 :: rest2 =>
            if utf8b1ok b0 b1 then
              match rest2 with
              | [] => []
              | b2 :: rest3 =>
                  if isCont b2 then b0 :: b1 :: b2 :: utf8Clean rest3
                  else utf8Clean (b2 :: rest3)
            else utf8Clean (b1 :: rest2)
      else if 240 ≤ b0 && b0 ≤ 244 then
        match rest with
        | [] => []
        | b1 :: rest2 =>
            if utf8b1ok b0 b1 then
              match rest2 with
              | [] => []
              | b2 :: rest3 =>
                  if isCont b2 then
                    match rest3 with
                    | [] => []
                    | b3 :: rest4 =>
                        if isCont b3 then b0 :: b1 :: b2 :: b3 :: utf8Clean rest4
                        else utf8Clean (b3 :: rest4)
                  else utf8Clean (b2 :: rest3)
            else utf8Clean (b1 :: rest2)
      else utf8Clean rest

/-- The trailing-zero strip performed by `rstrip(b"\x00")`. -/
def rstrip0 (b : List Nat) : List Nat :=
  (b.reverse.dropWhile (· == 0)).reverse

/-- Python `read_str` from hotel.py: strip trailing zero bytes
(`rstrip(b"\x00")`), then decode as UTF-8 with `errors="ignore"` —
on the byte level, the `utf8Clean` pass. -/
def read_str (b : List Nat) : List Nat :=
  utf8Clean (rstrip0 b)

/-- Slice `len` bytes at offset `off`, the building block of `struct.unpack`. -/
def slice (buf : List Nat) (off len : Nat) : List Nat :=
  (buf.drop off).take len

-- Status constants of hotel.py.
def ROOM_DELETED : Nat := 0
def ROOM_ACTIVE_VACANT : Nat := 1
def ROOM_ACTIVE_OCCUPIED : Nat := 2
def GUEST_DELETED : Nat := 0
def GUEST_ACTIVE : Nat := 1
def STAY_DELETED : Nat := 9
def STAY_OPEN : Nat := 1
def STAY_CLOSED : Nat := 0
def KEYCARD_DELETED : Nat := 0
def KEYCARD_ACTIVE : Nat := 1

-- Record slot sizes of hotel.py.
def ROOM_SIZE : Nat := 64
def GUEST_SIZE : Nat := 112
def STAY_SIZE : Nat := 64
def KEYCARD_SIZE : Nat := 32

/-- The 32-bit range check performed by `struct.pack` on an `<I` field. -/
def u32ok (n : Nat) : Prop := n < 4294967296

instance (n : Nat) : Decidable (u32ok n) := by unfold u32ok; infer_instance

/-- Python `Room` record (struct `<II20sIIIII`, 48 payload bytes, 64-byte slot). -/
structure Room where
  room_id : Nat
  status : Nat
  room_type : List Nat
  floor : Nat
  capacity : Nat
  max_cards : Nat
  created_at : Nat
  updated_at : Nat
deriving DecidableEq

/-- Python `Guest` record (struct `<II50s15s20sII`, 101 payload bytes, 112-byte slot). -/
structure Guest where
  guest_id : Nat
  status : Nat
  full_name : List Nat
  phone : List Nat
  id_no : List Nat
  created_at : Nat
  updated_at : Nat
deriving DecidableEq

/-- Python `Stay` record (struct `<IIII10s10sIII`, 48 payload bytes, 64-byte slot). -/
structure Stay where
  stay_id : Nat
  status : Nat
  guest_id : Nat
  room_id : Nat
  checkin_date : List Nat
  checkout_date : List Nat
  cards_issued : Nat
  cards_returned : Nat
  updated_at : Nat
deriving DecidableEq

/-- Python `Keycard` record (struct `<III10sII`, 30 payload bytes, 32-byte slot). -/
structure Keycard where
  keycard_id : Nat
  status : Nat
  room_id : Nat
  serial : List Nat
  created_at : Nat
  updated_at : Nat
deriving DecidableEq

/-- Python `Room.pack`: struct-pack the fields, then `ljust` to the 64-byte slot. -/
def Room.pack (r : Room) : Option (List Nat) :=
  if u32ok r.room_id ∧ u32ok r.status ∧ u32ok r.floor ∧ u32ok r.capacity ∧
     u32ok r.max_cards ∧ u32ok r.created_at ∧ u32ok r.updated_at then
    some ((u32le r.room_id ++ (u32le r.status ++ (fix_bytes r.room_type 20 ++
      (u32le r.floor ++ (u32le r.capacity ++ (u32le r.max_cards ++
      (u32le r.created_at ++ u32le r.updated_at))))))) ++ List.replicate (ROOM_SIZE - 48) 0)
  else none

/-- Python `Room.unpack`: struct-unpack the first 48 bytes of the slot. -/
def Room.unpack (buf : List Nat) : Room :=
  let b := buf.take 48
  { room_id := decU32 (slice b 0 4)
    status := decU32 (slice b 4 4)
    room_type := read_str (slice b 8 20)
    floor := decU32 (slice b 28 4)
    capacity := decU32 (slice b 32 4)
    max_cards := decU32 (slice b 36 4)
    created_at := decU32 (slice b 40 4)
    updated_at := decU32 (slice b 44 4) }

/-- Python `Guest.pack`: struct-pack the fields, then `ljust` to the 112-byte slot. -/
def Guest.pack (g : Guest) : Option (List Nat) :=
  if u32ok g.guest_id ∧ u32ok g.status ∧ u32ok g.created_at ∧ u32ok g.updated_at then
    some ((u32le g.guest_id ++ (u32le g.status ++ (fix_bytes g.full_name 50 ++
      (fix_bytes g.phone 15 ++ (fix_bytes g.id_no 20 ++
      (u32le g.created_at ++ u32le g.updated_at)))))) ++ List.replicate (GUEST_SIZE - 101) 0)
  else none

/-- Python `Guest.unpack`: struct-unpack the first 101 bytes of the slot. -/
def Guest.unpack (buf : List Nat) : Guest :=
  let b := buf.take 101
  { guest_id := decU32 (slice b 0 4)
    status := decU32 (slice b 4 4)
    full_name := read_str (slice b 8 50)
    phone := read_str (slice b 58 15)
    id_no := read_str (slice b 73 20)
    created_at := decU32 (slice b 93 4)
    updated_at := decU32 (slice b 97 4) }

/-- Python `Stay.pack`: struct-pack the fields, then `ljust` to the 64-byte slot. -/
def Stay.pack (st : Stay) : Option (List Nat) :=
  if u32ok st.stay_id ∧ u32ok st.status ∧ u32ok st.guest_id ∧ u32ok st.room_id ∧
     u32ok st.cards_issued ∧ u32ok st.cards_returned ∧ u32ok st.updated_at then
    some ((u32le st.stay_id ++ (u32le st.status ++ (u32le st.guest_id ++
      (u32le st.room_id ++ (fix_bytes st.checkin_date 10 ++
      (fix_bytes st.checkout_date 10 ++ (u32le st.cards_issued ++
      (u32le st.cards_returned ++ u32le st.updated_at)))))))) ++ List.replicate (STAY_SIZE - 48) 0)
  else none

/-- Python `Stay.unpack`: struct-unpack the first 48 bytes of the slot. -/
def Stay.unpack (buf : List Nat) : Stay :=
  let b := buf.take 48
  { stay_id := decU32 (slice b 0 4)
    status := decU32 (slice b 4 4)
    guest_id := decU32 (slice b 8 4)
    room_id := decU32 (slice b 12 4)
    checkin_date := read_str (slice b 16 10)
    checkout_date := read_str (slice b 26 10)
    cards_issued := decU32 (slice b 36 4)
    cards_returned := decU32 (slice b 40 4)
    updated_at := decU32 (slice b 44 4) }

/-- Python `Keycard.pack`: struct-pack the fields, then `ljust` to the 32-byte slot. -/
def Keycard.pack (k : Keycard) : Option (List Nat) :=
  if u32ok k.keycard_id ∧ u32ok k.status ∧ u32ok k.room_id ∧
     u32ok k.created_at ∧ u32ok k.updated_at then
    some ((u32le k.keycard_id ++ (u32le k.status ++ (u32le k.room_id ++
      (fix_bytes k.serial 10 ++ (u32le k.created_at ++ u32le k.updated_at))))) ++
      List.replicate (KEYCARD_SIZE - 30) 0)
  else none

/-- Python `Keycard.unpack`: struct-unpack the first 30 bytes of the slot. -/
def Keycard.unpack (buf : List Nat) : Keycard :=
  let b := buf.take 30
  { keycard_id := decU32 (slice b 0 4)
    status := decU32 (slice b 4 4)
    room_id := decU32 (slice b 8 4)
    serial := read_str (slice b 12 10)
    created_at := decU32 (slice b 22 4)
    updated_at := decU32 (slice b 26 4) }

/-! ## Codec lemmas -/

lemma u32le_length (n : Nat) : (u32le n).length = 4 := rfl

lemma decU32_u32le {n : Nat} (h : u32ok n) : decU32 (u32le n) = n := by
  unfold u32ok at h
  simp only [u32le, decU32, List.foldr]
  omega

lemma fix_bytes_length (s : List Nat) (k : Nat) : (fix_bytes s k).length = k := by
  simp only [fix_bytes, List.length_append, List.length_replicate, List.length_take]
  omega

/-- Stripping trailing zeros ignores appended zero padding. -/
lemma rstrip0_append_zeros (l : List Nat) (n : Nat) :
    rstrip0 (l ++ List.replicate n 0) = rstrip0 l := by
  simp only [rstrip0, List.reverse_append, List.reverse_replicate]
  congr 1
  induction n with
  | zero => simp
  | succ m ih => simp [List.replicate_succ, ih]

lemma read_str_append_zeros (l : List Nat) (n : Nat) :
    read_str (l ++ List.replicate n 0) = read_str l := by
  unfold read_str
  rw [rstrip0_append_zeros]

lemma read_str_fix_bytes (s : List Nat) (k : Nat) :
    read_str (fix_bytes s k) = read_str (s.take k) := by
  simp [fix_bytes, read_str_append_zeros]

/-- A list with no trailing zero byte is unchanged by `rstrip0`. -/
lemma rstrip0_eq_self {l : List Nat} (h : l.getLast? ≠ some 0) : rstrip0 l = l := by
  unfold rstrip0
  rcases hr : l.reverse with _ | ⟨a, t⟩
  · simpa using congrArg List.reverse hr
  · have ha : (a == 0) = false := by
      have : l.getLast? = some a := by
        rw [← List.head?_reverse, hr]; rfl
      simp only [beq_eq_false_iff_ne, ne_eq]
      intro hcz
      exact h (by rw [this, hcz])
    rw [List.dropWhile_cons, ha]
    simp only [Bool.false_eq_true, if_false]
    rw [← hr, List.reverse_reverse]

/-- A well-formed byte string with no trailing zero byte is unchanged by
`read_str`. -/
lemma read_str_eq_self {l : List Nat} (h : l.getLast? ≠ some 0)
    (h2 : utf8Clean l = l) : read_str l = l := by
  unfold read_str
  rw [rstrip0_eq_self h, h2]

/-- Extracting a middle chunk whose position and width are known. -/
lemma slice_mid {pre mid : List Nat} (rest : List Nat) {off k : Nat}
    (h1 : pre.length = off) (h2 : mid.length = k) :
    slice (pre ++ (mid ++ rest)) off k = mid := by
  unfold slice
  rw [List.drop_left' h1, List.take_left' h2]

lemma slice_final {pre mid : List Nat} {off k : Nat}
    (h1 : pre.length = off) (h2 : mid.length = k) :
    slice (pre ++ mid) off k = mid := by
  unfold slice
  rw [List.drop_left' h1, ← h2, List.take_length]

lemma slice_first {mid : List Nat} (rest : List Nat) {k : Nat} (h2 : mid.length = k) :
    slice (mid ++ rest) 0 k = mid := by
  unfold slice
  rw [List.drop_zero, List.take_left' h2]

/-- A text value survives the codec when its byte encoding fits the field
width, does not end in a zero byte, and is well-formed UTF-8 (fixed by the
`errors="ignore"` cleaning pass) — the last condition holds for the UTF-8
encoding of every Python string. -/
def fits_text (s : List Nat) (k : Nat) : Prop :=
  s.length ≤ k ∧ s.getLast? ≠ some 0 ∧ utf8Clean s = s

instance (s : List Nat) (k : Nat) : Decidable (fits_text s k) := by
  unfold fits_text; infer_instance

lemma read_str_take_of_fits {s : List Nat} {k : Nat} (h : fits_text s k) :
    read_str (s.take k) = s := by
  rw [List.take_of_length_le h.1]
  exact read_str_eq_self h.2.1 h.2.2

/-- What `Room.unpack` recovers from `Room.pack`: all integer fields exactly,
the text field truncated to its byte budget and stripped of trailing zeros. -/
lemma room_unpack_pack {r : Room} {bs : List Nat} (h : r.pack = some bs) :
    Room.unpack bs = { r with room_type := read_str (r.room_type.take 20) } := by
  unfold Room.pack at h
  split at h
  case isFalse => exact absurd h (by simp)
  case isTrue hok =>
  obtain ⟨h1, h2, h3, h4, h5, h6, h7⟩ := hok
  have hbs := (Option.some.injEq _ _).mp h.symm
  set A1 := u32le r.room_id with hA1
  set A2 := u32le r.status with hA2
  set A3 := fix_bytes r.room_type 20 with hA3
  set A4 := u32le r.floor with hA4
  set A5 := u32le r.capacity with hA5
  set A6 := u32le r.max_cards with hA6
  set A7 := u32le r.created_at with hA7
  set A8 := u32le r.updated_at with hA8
  set raw := A1 ++ (A2 ++ (A3 ++ (A4 ++ (A5 ++ (A6 ++ (A7 ++ A8)))))) with hraw
  have lA1 : A1.length = 4 := u32le_length _
  have lA2 : A2.length = 4 := u32le_length _
  have lA3 : A3.length = 20 := fix_bytes_length _ _
  have lA4 : A4.length = 4 := u32le_length _
  have lA5 : A5.length = 4 := u32le_length _
  have lA6 : A6.length = 4 := u32le_length _
  have lA7 : A7.length = 4 := u32le_length _
  have lA8 : A8.length = 4 := u32le_length _
  have hb : bs.take 48 = raw := by
    rw [hbs]
    exact List.take_left' (by
      simp [hraw, List.length_append, lA1, lA2, lA3, lA4, lA5, lA6, lA7, lA8])
  have f1 : slice raw 0 4 = A1 := slice_first _ lA1
  have f2 : slice raw 4 4 = A2 := slice_mid _ lA1 lA2
  have f3 : slice raw 8 20 = A3 := by
    have e : raw = (A1 ++ A2) ++ (A3 ++ (A4 ++ (A5 ++ (A6 ++ (A7 ++ A8))))) := by
      simp [hraw, List.append_assoc]
    rw [e]
    exact slice_mid _ (by simp [lA1, lA2]) lA3
  have f4 : slice raw 28 4 = A4 := by
    have e : raw = (A1 ++ (A2 ++ A3)) ++ (A4 ++ (A5 ++ (A6 ++ (A7 ++ A8)))) := by
      simp [hraw, List.append_assoc]
    rw [e]
    exact slice_mid _ (by simp [lA1, lA2, lA3]) lA4
  have f5 : slice raw 32 4 = A5 := by
    have e : raw = (A1 ++ (A2 ++ (A3 ++ A4))) ++ (A5 ++ (A6 ++ (A7 ++ A8))) := by
      simp [hraw, List.append_assoc]
    rw [e]
    exact slice_mid _ (by simp [lA1, lA2, lA3, lA4]) lA5
  have f6 : slice raw 36 4 = A6 := by
    have e : raw = (A1 ++ (A2 ++ (A3 ++ (A4 ++ A5)))) ++ (A6 ++ (A7 ++ A8)) := by
      simp [hraw, List.append_assoc]
    rw [e]
    exact slice_mid _ (by simp [lA1, lA2, lA3, lA4, lA5]) lA6
  have f7 : slice raw 40 4 = A7 := by
    have e : raw = (A1 ++ (A2 ++ (A3 ++ (A4 ++ (A5 ++ A6))))) ++ (A7 ++ A8) := by
      simp [hraw, List.append_assoc]
    rw [e]
    exact slice_mid _ (by simp [lA1, lA2, lA3, lA4, lA5, lA6]) lA7
  have f8 : slice raw 44 4 = A8 := by
    have e : raw = (A1 ++ (A2 ++ (A3 ++ (A4 ++ (A5 ++ (A6 ++ A7)))))) ++ A8 := by
      simp [hraw, List.append_assoc]
    rw [e]
    exact slice_final (by simp [lA1, lA2, lA3, lA4, lA5, lA6, lA7]) lA8
  show Room.unpack bs = _
  unfold Room.unpack
  simp only [hb, f1, f2, f3, f4, f5, f6, f7, f8, hA1, hA2, hA3, hA4, hA5, hA6, hA7, hA8,
    decU32_u32le h1, decU32_u32le h2, decU32_u32le h3, decU32_u32le h4,
    decU32_u32le h5, decU32_u32le h6, decU32_u32le h7, read_str_fix_bytes]

/-- Full round trip for `Room` when the text field fits its budget. -/
lemma room_roundtrip {r : Room} {bs : List Nat} (h : r.pack = some bs)
    (ht : fits_text r.room_type 20) : Room.unpack bs = r := by
  rw [room_unpack_pack h, read_str_take_of_fits ht]

/-- What `Guest.unpack` recovers from `Guest.pack`. -/
lemma guest_unpack_pack {g : Guest} {bs : List Nat} (h : g.pack = some bs) :
    Guest.unpack bs =
      { g with full_name := read_str (g.full_name.take 50)
               phone := read_str (g.phone.take 15)
               id_no := read_str (g.id_no.take 20) } := by
  unfold Guest.pack at h
  split at h
  case isFalse => exact absurd h (by simp)
  case isTrue hok =>
  obtain ⟨h1, h2, h3, h4⟩ := hok
  have hbs := (Option.some.injEq _ _).mp h.symm
  set A1 := u32le g.guest_id with hA1
  set A2 := u32le g.status with hA2
  set A3 := fix_bytes g.full_name 50 with hA3
  set A4 := fix_bytes g.phone 15 with hA4
  set A5 := fix_bytes g.id_no 20 with hA5
  set A6 := u32le g.created_at with hA6
  set A7 := u32le g.updated_at with hA7
  set raw := A1 ++ (A2 ++ (A3 ++ (A4 ++ (A5 ++ (A6 ++ A7))))) with hraw
  have lA1 : A1.length = 4 := u32le_length _
  have lA2 : A2.length = 4 := u32le_length _
  have lA3 : A3.length = 50 := fix_bytes_length _ _
  have lA4 : A4.length = 15 := fix_bytes_length _ _
  have lA5 : A5.length = 20 := fix_bytes_length _ _
  have lA6 : A6.length = 4 := u32le_length _
  have lA7 : A7.length = 4 := u32le_length _
  have hb : bs.take 101 = raw := by
    rw [hbs]
    exact List.take_left' (by
      simp [hraw, List.length_append, lA1, lA2, lA3, lA4, lA5, lA6, lA7])
  have f1 : slice raw 0 4 = A1 := slice_first _ lA1
  have f2 : slice raw 4 4 = A2 := slice_mid _ lA1 lA2
  have f3 : slice raw 8 50 = A3 := by
    have e : raw = (A1 ++ A2) ++ (A3 ++ (A4 ++ (A5 ++ (A6 ++ A7)))) := by
      simp [hraw, List.append_assoc]
    rw [e]
    exact slice_mid _ (by simp [lA1, lA2]) lA3
  have f4 : slice raw 58 15 = A4 := by
    have e : raw = (A1 ++ (A2 ++ A3)) ++ (A4 ++ (A5 ++ (A6 ++ A7))) := by
      simp [hraw, List.append_assoc]
    rw [e]
    exact slice_mid _ (by simp [lA1, lA2, lA3]) lA4
  have f5 : slice raw 73 20 = A5 := by
    have e : raw = (A1 ++ (A2 ++ (A3 ++ A4))) ++ (A5 ++ (A6 ++ A7)) := by
      simp [hraw, List.append_assoc]
    rw [e]
    exact slice_mid _ (by simp [lA1, lA2, lA3, lA4]) lA5
  have f6 : slice raw 93 4 = A6 := by
    have e : raw = (A1 ++ (A2 ++ (A3 ++ (A4 ++ A5)))) ++ (A6 ++ A7) := by
      simp [hraw, List.append_assoc]
    rw [e]
    exact slice_mid _ (by simp [lA1, lA2, lA3, lA4, lA5]) lA6
  have f7 : slice raw 97 4 = A7 := by
    have e : raw = (A1 ++ (A2 ++ (A3 ++ (A4 ++ (A5 ++ A6))))) ++ A7 := by
      simp [hraw, List.append_assoc]
    rw [e]
    exact slice_final (by simp [lA1, lA2, lA3, lA4, lA5, lA6]) lA7
  show Guest.unpack bs = _
  unfold Guest.unpack
  simp only [hb, f1, f2, f3, f4, f5, f6, f7, hA1, hA2, hA3, hA4, hA5, hA6, hA7,
    decU32_u32le h1, decU32_u32le h2, decU32_u32le h3, decU32_u32le h4, read_str_fix_bytes]

/-- Full round trip for `Guest` when the text fields fit their budgets. -/
lemma guest_roundtrip {g : Guest} {bs : List Nat} (h : g.pack = some bs)
    (ht1 : fits_text g.full_name 50) (ht2 : fits_text g.phone 15)
    (ht3 : fits_text g.id_no 20) : Guest.unpack bs = g := by
  rw [guest_unpack_pack h, read_str_take_of_fits ht1, read_str_take_of_fits ht2,
    read_str_take_of_fits ht3]

/-- What `Stay.unpack` recovers from `Stay.pack`. -/
lemma stay_unpack_pack {st : Stay} {bs : List Nat} (h : st.pack = some bs) :
    Stay.unpack bs =
      { st with checkin_date := read_str (st.checkin_date.take 10)
                checkout_date := read_str (st.checkout_date.take 10) } := by
  unfold Stay.pack at h
  split at h
  case isFalse => exact absurd h (by simp)
  case isTrue hok =>
  obtain ⟨h1, h2, h3, h4, h5, h6, h7⟩ := hok
  have hbs := (Option.some.injEq _ _).mp h.symm
  set A1 := u32le st.stay_id with hA1
  set A2 := u32le st.status with hA2
  set A3 := u32le st.guest_id with hA3
  set A4 := u32le st.room_id with hA4
  set A5 := fix_bytes st.checkin_date 10 with hA5
  set A6 := fix_bytes st.checkout_date 10 with hA6
  set A7 := u32le st.cards_issued with hA7
  set A8 := u32le st.cards_returned with hA8
  set A9 := u32le st.updated_at with hA9
  set raw := A1 ++ (A2 ++ (A3 ++ (A4 ++ (A5 ++ (A6 ++ (A7 ++ (A8 ++ A9))))))) with hraw
  have lA1 : A1.length = 4 := u32le_length _
  have lA2 : A2.length = 4 := u32le_length _
  have lA3 : A3.length = 4 := u32le_length _
  have lA4 : A4.length = 4 := u32le_length _
  have lA5 : A5.length = 10 := fix_bytes_length _ _
  have lA6 : A6.length = 10 := fix_bytes_length _ _
  have lA7 : A7.length = 4 := u32le_length _
  have lA8 : A8.length = 4 := u32le_length _
  have lA9 : A9.length = 4 := u32le_length _
  have hb : bs.take 48 = raw := by
    rw [hbs]
    exact List.take_left' (by
      simp [hraw, List.length_append, lA1, lA2, lA3, lA4, lA5, lA6, lA7, lA8, lA9])
  have f1 : slice raw 0 4 = A1 := slice_first _ lA1
  have f2 : slice raw 4 4 = A2 := slice_mid _ lA1 lA2
  have f3 : slice raw 8 4 = A3 := by
    have e : raw = (A1 ++ A2) ++ (A3 ++ (A4 ++ (A5 ++ (A6 ++ (A7 ++ (A8 ++ A9)))))) := by
      simp [hraw, List.append_assoc]
    rw [e]
    exact slice_mid _ (by simp [lA1, lA2]) lA3
  have f4 : slice raw 12 4 = A4 := by
    have e : raw = (A1 ++ (A2 ++ A3)) ++ (A4 ++ (A5 ++ (A6 ++ (A7 ++ (A8 ++ A9))))) := by
      simp [hraw, List.append_assoc]
    rw [e]
    exact slice_mid _ (by simp [lA1, lA2, lA3]) lA4
  have f5 : slice raw 16 10 = A5 := by
    have e : raw = (A1 ++ (A2 ++ (A3 ++ A4))) ++ (A5 ++ (A6 ++ (A7 ++ (A8 ++ A9)))) := by
      simp [hraw, List.append_assoc]
    rw [e]
    exact slice_mid _ (by simp [lA1, lA2, lA3, lA4]) lA5
  have f6 : slice raw 26 10 = A6 := by
    have e : raw = (A1 ++ (A2 ++ (A3 ++ (A4 ++ A5)))) ++ (A6 ++ (A7 ++ (A8 ++ A9))) := by
      simp [hraw, List.append_assoc]
    rw [e]
    exact slice_mid _ (by simp [lA1, lA2, lA3, lA4, lA5]) lA6
  have f7 : slice raw 36 4 = A7 := by
    have e : raw = (A1 ++ (A2 ++ (A3 ++ (A4 ++ (A5 ++ A6))))) ++ (A7 ++ (A8 ++ A9)) := by
      simp [hraw, List.append_assoc]
    rw [e]
    exact slice_mid _ (by simp [lA1, lA2, lA3, lA4, lA5, lA6]) lA7
  have f8 : slice raw 40 4 = A8 := by
    have e : raw = (A1 ++ (A2 ++ (A3 ++ (A4 ++ (A5 ++ (A6 ++ A7)))))) ++ (A8 ++ A9) := by
      simp [hraw, List.append_assoc]
    rw [e]
    exact slice_mid _ (by simp [lA1, lA2, lA3, lA4, lA5, lA6, lA7]) lA8
  have f9 : slice raw 44 4 = A9 := by
    have e : raw = (A1 ++ (A2 ++ (A3 ++ (A4 ++ (A5 ++ (A6 ++ (A7 ++ A8))))))) ++ A9 := by
      simp [hraw, List.append_assoc]
    rw [e]
    exact slice_final (by simp [lA1, lA2, lA3, lA4, lA5, lA6, lA7, lA8]) lA9
  show Stay.unpack bs = _
  unfold Stay.unpack
  simp only [hb, f1, f2, f3, f4, f5, f6, f7, f8, f9, hA1, hA2, hA3, hA4, hA5, hA6, hA7, hA8, hA9,
    decU32_u32le h1, decU32_u32le h2, decU32_u32le h3, decU32_u32le h4,
    decU32_u32le h5, decU32_u32le h6, decU32_u32le h7, read_str_fix_bytes]

/-- Full round trip for `Stay` when the text fields fit their budgets. -/
lemma stay_roundtrip {st : Stay} {bs : List Nat} (h : st.pack = some bs)
    (ht1 : fits_text st.checkin_date 10) (ht2 : fits_text st.checkout_date 10) :
    Stay.unpack bs = st := by
  rw [stay_unpack_pack h, read_str_take_of_fits ht1, read_str_take_of_fits ht2]

/-- What `Keycard.unpack` recovers from `Keycard.pack`. -/
lemma keycard_unpack_pack {k : Keycard} {bs : List Nat} (h : k.pack = some bs) :
    Keycard.unpack bs = { k with serial := read_str (k.serial.take 10) } := by
  unfold Keycard.pack at h
  split at h
  case isFalse => exact absurd h (by simp)
  case isTrue hok =>
  obtain ⟨h1, h2, h3, h4, h5⟩ := hok
  have hbs := (Option.some.injEq _ _).mp h.symm
  set A1 := u32le k.keycard_id with hA1
  set A2 := u32le k.status with hA2
  set A3 := u32le k.room_id with hA3
  set A4 := fix_bytes k.serial 10 with hA4
  set A5 := u32le k.created_at with hA5
  set A6 := u32le k.updated_at with hA6
  set raw := A1 ++ (A2 ++ (A3 ++ (A4 ++ (A5 ++ A6)))) with hraw
  have lA1 : A1.length = 4 := u32le_length _
  have lA2 : A2.length = 4 := u32le_length _
  have lA3 : A3.length = 4 := u32le_length _
  have lA4 : A4.length = 10 := fix_bytes_length _ _
  have lA5 : A5.length = 4 := u32le_length _
  have lA6 : A6.length = 4 := u32le_length _
  have hb : bs.take 30 = raw := by
    rw [hbs]
    exact List.take_left' (by
      simp [hraw, List.length_append, lA1, lA2, lA3, lA4, lA5, lA6])
  have f1 : slice raw 0 4 = A1 := slice_first _ lA1
  have f2 : slice raw 4 4 = A2 := slice_mid _ lA1 lA2
  have f3 : slice raw 8 4 = A3 := by
    have e : raw = (A1 ++ A2) ++ (A3 ++ (A4 ++ (A5 ++ A6))) := by
      simp [hraw, List.append_assoc]
    rw [e]
    exact slice_mid _ (by simp [lA1, lA2]) lA3
  have f4 : slice raw 12 10 = A4 := by
    have e : raw = (A1 ++ (A2 ++ A3)) ++ (A4 ++ (A5 ++ A6)) := by
      simp [hraw, List.append_assoc]
    rw [e]
    exact slice_mid _ (by simp [lA1, lA2, lA3]) lA4
  have f5 : slice raw 22 4 = A5 := by
    have e : raw = (A1 ++ (A2 ++ (A3 ++ A4))) ++ (A5 ++ A6) := by
      simp [hraw, List.append_assoc]
    rw [e]
    exact slice_mid _ (by simp [lA1, lA2, lA3, lA4]) lA5
  have f6 : slice raw 26 4 = A6 := by
    have e : raw = (A1 ++ (A2 ++ (A3 ++ (A4 ++ A5)))) ++ A6 := by
      simp [hraw, List.append_assoc]
    rw [e]
    exact slice_final (by simp [lA1, lA2, lA3, lA4, lA5]) lA6
  show Keycard.unpack bs = _
  unfold Keycard.unpack
  simp only [hb, f1, f2, f3, f4, f5, f6, hA1, hA2, hA3, hA4, hA5, hA6,
    decU32_u32le h1, decU32_u32le h2, decU32_u32le h3, decU32_u32le h4,
    decU32_u32le h5, read_str_fix_bytes]

/-- Full round trip for `Keycard` when the text field fits its budget. -/
lemma keycard_roundtrip {k : Keycard} {bs : List Nat} (h : k.pack = some bs)
    (ht : fits_text k.serial 10) : Keycard.unpack bs = k := by
  rw [keycard_unpack_pack h, read_str_take_of_fits ht]

/-! ## Byte-level fixed-slot store (`FixedStore` of hotel.py)

A store file is a byte list.  `store_len` is `__len__` (integer division of
the byte size by the slot size), `read_at` is `_read_at` (returns `none` on
a short read), `write_at` is `_write_at` (seek + write: bytes before the
slot are kept, a seek past EOF zero-fills, bytes after the written range
are kept), and `append_slot` is `append` (write at index `len(self)`). -/

def store_len (file : List Nat) (size : Nat) : Nat := file.length / size

def read_at (file : List Nat) (size i : Nat) : Option (List Nat) :=
  let b := (file.drop (i * size)).take size
  if b.length = size then some b else none

def write_at (file : List Nat) (size i : Nat) (data : List Nat) : List Nat :=
  (file.take (i * size)) ++
    (List.replicate (i * size - file.length) 0 ++ (data ++ file.drop (i * size + data.length)))

def append_slot (file : List Nat) (size : Nat) (data : List Nat) : List Nat :=
  write_at file size (store_len file size) data

lemma store_len_mul_le (file : List Nat) (size : Nat) :
    store_len file size * size ≤ file.length :=
  Nat.div_mul_le_self _ _

lemma length_lt_store_len_mul_add (file : List Nat) {size : Nat} (hs : 0 < size) :
    file.length < store_len file size * size + size := by
  have h1 := Nat.div_add_mod file.length size
  have h2 := Nat.mod_lt file.length hs
  unfold store_len
  rw [Nat.mul_comm (file.length / size) size]
  omega

/-- Python `append` writes exactly at the end of the complete slots: the file
becomes the old complete slots followed by the new slot's bytes.  (A
trailing partial slot, which `__len__` never counts, is overwritten.) -/
lemma append_slot_eq (file : List Nat) {size : Nat} (data : List Nat)
    (hs : 0 < size) (hd : data.length = size) :
    append_slot file size data = file.take (store_len file size * size) ++ data := by
  have h1 := store_len_mul_le file size
  have h2 := length_lt_store_len_mul_add file hs
  unfold append_slot write_at
  have e1 : store_len file size * size - file.length = 0 := by omega
  have e2 : file.drop (store_len file size * size + data.length) = [] := by
    apply List.drop_eq_nil_of_le
    omega
  rw [e1, e2]
  simp

lemma take_store_len_length (file : List Nat) (size : Nat) :
    (file.take (store_len file size * size)).length = store_len file size * size := by
  rw [List.length_take]
  exact min_eq_left (store_len_mul_le file size)

/-- Appending grows the slot count by exactly one. -/
lemma store_len_append_slot (file : List Nat) {size : Nat} (data : List Nat)
    (hs : 0 < size) (hd : data.length = size) :
    store_len (append_slot file size data) size = store_len file size + 1 := by
  rw [append_slot_eq file data hs hd]
  unfold store_len
  rw [List.length_append, List.length_take,
    min_eq_left (Nat.div_mul_le_self file.length size), hd,
    ← Nat.succ_mul (file.length / size) size]
  exact Nat.mul_div_cancel _ hs

/-- The appended slot reads back exactly the written bytes. -/
lemma read_at_append_slot (file : List Nat) {size : Nat} (data : List Nat)
    (hs : 0 < size) (hd : data.length = size) :
    read_at (append_slot file size data) size (store_len file size) = some data := by
  rw [append_slot_eq file data hs hd]
  unfold read_at
  have e : ((file.take (store_len file size * size) ++ data).drop
      (store_len file size * size)).take size = data := by
    rw [List.drop_left' (take_store_len_length file size), ← hd, List.take_length]
  simp [read_at, e, hd]

/-- Appending leaves every complete existing slot untouched. -/
lemma read_at_append_slot_frame (file : List Nat) {size : Nat} (data : List Nat)
    (hs : 0 < size) {i : Nat} (hi : i < store_len file size) :
    read_at (append_slot file size data) size i = read_at file size i := by
  have hfit : i * size + size ≤ store_len file size * size := by
    have := Nat.mul_le_mul_right size (Nat.succ_le_of_lt hi)
    rwa [Nat.succ_mul] at this
  have hA : (file.take (store_len file size * size)).length = store_len file size * size :=
    take_store_len_length file size
  have key : ((write_at file size (store_len file size) data).drop (i * size)).take size =
      (file.drop (i * size)).take size := by
    unfold write_at
    rw [List.drop_append_of_le_length (by omega)]
    rw [List.take_append_of_le_length (by rw [List.length_drop, hA]; omega)]
    rw [List.drop_take]
    rw [List.take_take]
    congr 1
    omega
  unfold append_slot
  unfold read_at
  rw [key]

/-! ## Domain service (`HotelService` of hotel.py)

The service owns one store per record kind.  We work over the decoded view
of the stores: a store is the list of records its slots hold (`iter`
order = slot order), `append` is list append and in-place `update` at a
slot is `List.set`.  `now_ts()` is an explicit `now` argument. -/

/-- Python `FixedStore.find_first`: first (index, record) satisfying the predicate. -/
def find_first {α : Type} (p : α → Bool) : List α → Option (Nat × α)
  | [] => none
  | x :: xs => if p x then some (0, x) else (find_first p xs).map (fun ir => (ir.1 + 1, ir.2))

/-- Python `HotelService._next_id`: maximum of the id attribute over all records
(soft-deleted included), plus one; `1` on an empty store. -/
def next_id {α : Type} (store : List α) (attr : α → Nat) : Nat :=
  (store.foldl (fun m r => max m (attr r)) 0) + 1

/-- The four stores owned by `HotelService`. -/
structure HState where
  rooms : List Room
  guests : List Guest
  stays : List Stay
  keycards : List Keycard
deriving DecidableEq

def HState.empty : HState := ⟨[], [], [], []⟩

/-- The keyword-argument dictionary of `update_room(room_id, **fields)`.
Every `Room` attribute may be supplied; `update_room` ignores the
`room_id` and `created_at` entries (its blocklist). -/
structure RoomPatch where
  room_id : Option Nat := none
  status : Option Nat := none
  room_type : Option (List Nat) := none
  floor : Option Nat := none
  capacity : Option Nat := none
  max_cards : Option Nat := none
  created_at : Option Nat := none
  updated_at : Option Nat := none
deriving DecidableEq

/-- Keyword arguments of `update_guest`; `guest_id`/`created_at` are ignored. -/
structure GuestPatch where
  guest_id : Option Nat := none
  status : Option Nat := none
  full_name : Option (List Nat) := none
  phone : Option (List Nat) := none
  id_no : Option (List Nat) := none
  created_at : Option Nat := none
  updated_at : Option Nat := none
deriving DecidableEq

/-- Keyword arguments of `update_keycard`; `keycard_id`/`created_at` are ignored. -/
structure KeycardPatch where
  keycard_id : Option Nat := none
  status : Option Nat := none
  room_id : Option Nat := none
  serial : Option (List Nat) := none
  created_at : Option Nat := none
  updated_at : Option Nat := none
deriving DecidableEq

/-- Python `HotelService.add_room`. -/
def add_room (s : HState) (room_type : List Nat) (floor capacity max_cards : Nat)
    (now : Nat) : Room × HState :=
  let room : Room :=
    { room_id := next_id s.rooms Room.room_id, status := ROOM_ACTIVE_VACANT,
      room_type := room_type, floor := floor, capacity := capacity,
      max_cards := max_cards, created_at := now, updated_at := now }
  (room, { s with rooms := s.rooms ++ [room] })

/-- Python `HotelService.update_room`: find-first by id (status-agnostic), apply the
supplied fields minus the blocklist, refresh `updated_at`, write back. -/
def update_room (s : HState) (room_id : Nat) (p : RoomPatch) (now : Nat) :
    Option Room × HState :=
  match find_first (fun r => r.room_id == room_id) s.rooms with
  | none => (none, s)
  | some (idx, room) =>
      let room2 : Room :=
        { room with
          status := p.status.getD room.status
          room_type := p.room_type.getD room.room_type
          floor := p.floor.getD room.floor
          capacity := p.capacity.getD room.capacity
          max_cards := p.max_cards.getD room.max_cards
          updated_at := now }
      (some room2, { s with rooms := s.rooms.set idx room2 })

/-- Python `HotelService.delete_room`: soft delete (status := 0). -/
def delete_room (s : HState) (room_id : Nat) (now : Nat) : Bool × HState :=
  match find_first (fun r => r.room_id == room_id) s.rooms with
  | none => (false, s)
  | some (idx, room) =>
      let room2 : Room := { room with status := ROOM_DELETED, updated_at := now }
      (true, { s with rooms := s.rooms.set idx room2 })

/-- Python `HotelService.add_guest`. -/
def add_guest (s : HState) (full_name phone id_no : List Nat) (now : Nat) :
    Guest × HState :=
  let guest : Guest :=
    { guest_id := next_id s.guests Guest.guest_id, status := GUEST_ACTIVE,
      full_name := full_name, phone := phone, id_no := id_no,
      created_at := now, updated_at := now }
  (guest, { s with guests := s.guests ++ [guest] })

/-- Python `HotelService.update_guest`. -/
def update_guest (s : HState) (guest_id : Nat) (p : GuestPatch) (now : Nat) :
    Option Guest × HState :=
  match find_first (fun g => g.guest_id == guest_id) s.guests with
  | none => (none, s)
  | some (idx, g) =>
      let g2 : Guest :=
        { g with
          status := p.status.getD g.status
          full_name := p.full_name.getD g.full_name
          phone := p.phone.getD g.phone
          id_no := p.id_no.getD g.id_no
          updated_at := now }
      (some g2, { s with guests := s.guests.set idx g2 })

/-- Python `HotelService.delete_guest`: soft delete (status := 0). -/
def delete_guest (s : HState) (guest_id : Nat) (now : Nat) : Bool × HState :=
  match find_first (fun g => g.guest_id == guest_id) s.guests with
  | none => (false, s)
  | some (idx, g) =>
      let g2 : Guest := { g with status := GUEST_DELETED, updated_at := now }
      (true, { s with guests := s.guests.set idx g2 })

/-- Python `HotelService.add_keycard`. -/
def add_keycard (s : HState) (room_id : Nat) (serial : List Nat) (now : Nat) :
    Keycard × HState :=
  let keycard : Keycard :=
    { keycard_id := next_id s.keycards Keycard.keycard_id, status := KEYCARD_ACTIVE,
      room_id := room_id, serial := serial, created_at := now, updated_at := now }
  (keycard, { s with keycards := s.keycards ++ [keycard] })

/-- Python `HotelService.update_keycard`. -/
def update_keycard (s : HState) (keycard_id : Nat) (p : KeycardPatch) (now : Nat) :
    Option Keycard × HState :=
  match find_first (fun k => k.keycard_id == keycard_id) s.keycards with
  | none => (none, s)
  | some (idx, k) =>
      let k2 : Keycard :=
        { k with
          status := p.status.getD k.status
          room_id := p.room_id.getD k.room_id
          serial := p.serial.getD k.serial
          updated_at := now }
      (some k2, { s with keycards := s.keycards.set idx k2 })

/-- Python `HotelService.delete_keycard`: soft delete (status := 0). -/
def delete_keycard (s : HState) (keycard_id : Nat) (now : Nat) : Bool × HState :=
  match find_first (fun k => k.keycard_id == keycard_id) s.keycards with
  | none => (false, s)
  | some (idx, k) =>
      let k2 : Keycard := { k with status := KEYCARD_DELETED, updated_at := now }
      (true, { s with keycards := s.keycards.set idx k2 })

/-- Python `HotelService.get_keycards(include_deleted)`. -/
def get_keycards (s : HState) (include_deleted : Bool) : List Keycard :=
  s.keycards.filter (fun k => include_deleted || k.status != KEYCARD_DELETED)

/-- Python `HotelService.get_keycards_by_room`: active keycards of one room. -/
def get_keycards_by_room (s : HState) (room_id : Nat) : List Keycard :=
  (get_keycards s false).filter (fun k => k.room_id == room_id)

/-- Python `HotelService.get_rooms(include_deleted)`. -/
def get_rooms (s : HState) (include_deleted : Bool) : List Room :=
  s.rooms.filter (fun r => include_deleted || r.status != ROOM_DELETED)

/-- Python `HotelService.get_guests(include_deleted)`. -/
def get_guests (s : HState) (include_deleted : Bool) : List Guest :=
  s.guests.filter (fun g => include_deleted || g.status != GUEST_DELETED)

/-- Python `HotelService.get_stays(include_deleted)`. -/
def get_stays (s : HState) (include_deleted : Bool) : List Stay :=
  s.stays.filter (fun st => include_deleted || st.status != STAY_DELETED)

/-- One zero-padded decimal number as ASCII bytes (Python `f"{n:0wd}"`). -/
def pad_num (n w : Nat) : List Nat :=
  let ds := (Nat.toDigits 10 n).map Char.toNat
  List.replicate (w - ds.length) 48 ++ ds

/-- The generated keycard serial
`f"KC{room_id:03d}{guest_id:03d}{now_ts() % 10000:04d}{i+1:02d}"`. -/
def kc_serial (room_id guest_id now i : Nat) : List Nat :=
  [75, 67] ++ (pad_num room_id 3 ++ (pad_num guest_id 3 ++
    (pad_num (now % 10000) 4 ++ pad_num (i + 1) 2)))

/-- Python `HotelService.checkin(guest_id, room_id, date_str, cards_issued)`.
`cards_issued` is an `Int` because the source accepts (and rejects)
negative card counts. -/
def checkin (s : HState) (guest_id room_id : Nat) (date_str : List Nat)
    (cards_issued : Int) (now : Nat) : Option Stay × HState :=
  let rp := find_first (fun r => r.room_id == room_id &&
    (r.status == ROOM_ACTIVE_VACANT || r.status == ROOM_ACTIVE_OCCUPIED)) s.rooms
  let gp := find_first (fun g => g.guest_id == guest_id && g.status == GUEST_ACTIVE) s.guests
  match rp, gp with
  | some (r_idx, room), some _ =>
      if room.status == ROOM_ACTIVE_OCCUPIED then (none, s)
      else if cards_issued < 0 || (room.max_cards : Int) < cards_issued then (none, s)
      else
        let stay : Stay :=
          { stay_id := next_id s.stays Stay.stay_id, status := STAY_OPEN,
            guest_id := guest_id, room_id := room_id, checkin_date := date_str,
            checkout_date := [], cards_issued := cards_issued.toNat,
            cards_returned := 0, updated_at := now }
        let s1 := { s with stays := s.stays ++ [stay] }
        let s2 := (List.range cards_issued.toNat).foldl
          (fun acc i => (add_keycard acc room_id (kc_serial room_id guest_id now i) now).2) s1
        let room2 : Room := { room with status := ROOM_ACTIVE_OCCUPIED, updated_at := now }
        (some stay, { s2 with rooms := s2.rooms.set r_idx room2 })
  | _, _ => (none, s)

/-- Python `HotelService.checkout(stay_id, date_str)`. -/
def checkout (s : HState) (stay_id : Nat) (date_str : List Nat) (now : Nat) :
    Bool × HState :=
  match find_first (fun st => st.stay_id == stay_id && st.status == STAY_OPEN) s.stays with
  | none => (false, s)
  | some (idx, st) =>
      let st2 : Stay :=
        { st with
          status := STAY_CLOSED
          checkout_date := date_str
          cards_returned := max st.cards_returned st.cards_issued
          updated_at := now }
      let s1 := { s with stays := s.stays.set idx st2 }
      let room_keycards := get_keycards_by_room s1 st.room_id
      let s2 := room_keycards.foldl
        (fun acc k => if k.status == KEYCARD_ACTIVE then (delete_keycard acc k.keycard_id now).2
          else acc) s1
      let s3 :=
        match find_first (fun r => r.room_id == st.room_id) s2.rooms with
        | none => s2
        | some (r_idx, room) =>
            if room.status != ROOM_DELETED then
              let room2 : Room := { room with status := ROOM_ACTIVE_VACANT, updated_at := now }
              { s2 with rooms := s2.rooms.set r_idx room2 }
            else s2
      (true, s3)

/-- Python `HotelService.delete_stay`: soft delete only (status := 9). -/
def delete_stay (s : HState) (stay_id : Nat) (now : Nat) : Bool × HState :=
  match find_first (fun st => st.stay_id == stay_id) s.stays with
  | none => (false, s)
  | some (idx, st) =>
      let st2 : Stay := { st with status := STAY_DELETED, updated_at := now }
      (true, { s with stays := s.stays.set idx st2 })

/-! ### `find_first` lemmas -/

lemma find_first_eq_none {α : Type} {p : α → Bool} {l : List α} :
    find_first p l = none ↔ ∀ x ∈ l, ¬ p x = true := by
  induction l with
  | nil => simp [find_first]
  | cons a t ih =>
      by_cases ha : p a
      · simp [find_first, ha]
      · simp only [find_first, ha, Bool.false_eq_true, if_false, Option.map_eq_none',
          List.mem_cons]
        constructor
        · intro h x hx
          rcases hx with rfl | hx
          · simp [ha]
          · exact ih.mp h x hx
        · intro h
          exact ih.mpr (fun x hx => h x (Or.inr hx))

lemma find_first_isSome {α : Type} {p : α → Bool} {l : List α} {x : α}
    (hx : x ∈ l) (hp : p x = true) : (find_first p l).isSome := by
  rcases hf : find_first p l with _ | ir
  · exact absurd hp (find_first_eq_none.mp hf x hx)
  · simp

lemma find_first_spec {α : Type} {p : α → Bool} {l : List α} {i : Nat} {x : α}
    (h : find_first p l = some (i, x)) :
    l[i]? = some x ∧ p x = true ∧ ∀ j < i, ∀ y, l[j]? = some y → p y = false := by
  induction l generalizing i with
  | nil => simp [find_first] at h
  | cons a t ih =>
      by_cases ha : p a
      · simp only [find_first, ha, if_true, Option.some.injEq, Prod.mk.injEq] at h
        obtain ⟨rfl, rfl⟩ := h
        exact ⟨by simp, ha, by omega⟩
      · simp only [find_first, ha, Bool.false_eq_true, if_false] at h
        rcases hf : find_first p t with _ | ⟨j, y⟩
        · simp [hf] at h
        · rw [hf] at h
          simp only [Option.map_some', Option.some.injEq, Prod.mk.injEq] at h
          obtain ⟨rfl, rfl⟩ := h
          obtain ⟨h1, h2, h3⟩ := ih hf
          refine ⟨by simpa using h1, h2, ?_⟩
          intro j2 hj2 y2 hy2
          match j2, hy2 with
          | 0, hy2 =>
              simp only [List.getElem?_cons_zero, Option.some.injEq] at hy2
              subst hy2
              exact eq_false_of_ne_true ha
          | j2 + 1, hy2 =>
              simp only [List.getElem?_cons_succ] at hy2
              exact h3 j2 (by omega) y2 hy2

lemma find_first_mem {α : Type} {p : α → Bool} {l : List α} {i : Nat} {x : α}
    (h : find_first p l = some (i, x)) : x ∈ l ∧ p x = true := by
  obtain ⟨h1, h2, -⟩ := find_first_spec h
  exact ⟨List.getElem?_mem h1, h2⟩

/-! ### `next_id` lemmas -/

lemma foldl_max_init_le {α : Type} (attr : α → Nat) (l : List α) (a : Nat) :
    a ≤ l.foldl (fun m r => max m (attr r)) a := by
  induction l generalizing a with
  | nil => simp
  | cons x t ih => exact le_trans (le_max_left _ _) (ih (max a (attr x)))

lemma foldl_max_mem_le {α : Type} (attr : α → Nat) {l : List α} {x : α} (hx : x ∈ l)
    (a : Nat) : attr x ≤ l.foldl (fun m r => max m (attr r)) a := by
  induction l generalizing a with
  | nil => simp at hx
  | cons y t ih =>
      rcases List.mem_cons.mp hx with rfl | hx
      · exact le_trans (le_max_right _ _) (foldl_max_init_le attr t _)
      · exact ih hx _


lemma find_first_of_mem {α : Type} {p : α → Bool} {l : List α} {x : α}
    (hx : x ∈ l) (hp : p x = true) : ∃ i y, find_first p l = some (i, y) := by
  have hs := find_first_isSome hx hp
  rcases h : find_first p l with _ | ⟨i, y⟩
  · rw [h] at hs; simp at hs
  · exact ⟨i, y, rfl⟩

lemma foldl_max_eq_init_or_mem {α : Type} (attr : α → Nat) (l : List α) (a : Nat) :
    l.foldl (fun m r => max m (attr r)) a = a ∨
      ∃ r ∈ l, l.foldl (fun m r => max m (attr r)) a = attr r := by
  induction l generalizing a with
  | nil => exact Or.inl rfl
  | cons x t ih =>
      rcases ih (max a (attr x)) with h | ⟨r, hr, h⟩
      · rcases Nat.le_total a (attr x) with hle | hle
        · right
          refine ⟨x, List.mem_cons_self _ _, ?_⟩
          simpa [max_eq_right hle] using h
        · left
          simpa [max_eq_left hle] using h
      · exact Or.inr ⟨r, List.mem_cons_of_mem _ hr, h⟩

lemma Room.pack_length {r : Room} {bs : List Nat} (h : r.pack = some bs) :
    bs.length = ROOM_SIZE := by
  unfold Room.pack at h
  split at h
  case isFalse => exact absurd h (by simp)
  case isTrue =>
  have hbs := (Option.some.injEq _ _).mp h.symm
  subst hbs
  simp [List.length_append, u32le_length, fix_bytes_length, ROOM_SIZE]

/-! ## Claims -/

/-- A `Room` whose text field fits its 20-byte budget (length 2) but ends in
a zero byte: the codec strips the trailing zero, breaking the round trip. -/
def roomCex : Room :=
  { room_id := 1, status := 1, room_type := [97, 0], floor := 2, capacity := 2,
    max_cards := 2, created_at := 5, updated_at := 6 }

/-- A fully canonical `Room` used as a concrete witness. -/
def roomOk : Room :=
  { room_id := 1, status := 1, room_type := [83, 84, 68], floor := 2, capacity := 2,
    max_cards := 2, created_at := 5, updated_at := 6 }

/-- C1 (counterexample): `roomCex`'s text field fits the 20-byte budget
(its UTF-8 encoding `"a\x00"` has 2 bytes), yet `unpack (pack roomCex)`
does not reproduce it — `read_str` strips the trailing zero byte. -/
theorem claim_C1_counterexample :
    roomCex.room_type.length ≤ 20 ∧ roomCex.pack.map Room.unpack ≠ some roomCex := by
  decide

/-- C1 (amended): for every entity kind, whenever `pack` succeeds (all
integer fields below `2^32`), `unpack (pack v)` reproduces every integer
field exactly and every text field as `read_str` of its byte-level
truncation to the field's budget — trailing zero bytes stripped, then any
ill-formed UTF-8 remnant (such as a multi-byte sequence split by the
truncation) dropped as the `errors="ignore"` decode does; if each text
field's encoding fits its budget, does not end in a zero byte, and is
well-formed UTF-8, every field of `v` is reproduced.  Oversized text never
makes `pack` fail. -/
theorem claim_C1_amended :
    (∀ (r : Room) (bs : List Nat), r.pack = some bs →
      Room.unpack bs = { r with room_type := read_str (r.room_type.take 20) } ∧
      (fits_text r.room_type 20 → Room.unpack bs = r)) ∧
    (∀ (g : Guest) (bs : List Nat), g.pack = some bs →
      Guest.unpack bs = { g with full_name := read_str (g.full_name.take 50), phone := read_str (g.phone.take 15), id_no := read_str (g.id_no.take 20) } ∧
      (fits_text g.full_name 50 → fits_text g.phone 15 → fits_text g.id_no 20 →
        Guest.unpack bs = g)) ∧
    (∀ (st : Stay) (bs : List Nat), st.pack = some bs →
      Stay.unpack bs = { st with checkin_date := read_str (st.checkin_date.take 10), checkout_date := read_str (st.checkout_date.take 10) } ∧
      (fits_text st.checkin_date 10 → fits_text st.checkout_date 10 →
        Stay.unpack bs = st)) ∧
    (∀ (k : Keycard) (bs : List Nat), k.pack = some bs →
      Keycard.unpack bs = { k with serial := read_str (k.serial.take 10) } ∧
      (fits_text k.serial 10 → Keycard.unpack bs = k)) := by
  refine ⟨?_, ?_, ?_, ?_⟩
  · exact fun r bs h => ⟨room_unpack_pack h, fun ht => room_roundtrip h ht⟩
  · exact fun g bs h => ⟨guest_unpack_pack h,
      fun h1 h2 h3 => guest_roundtrip h h1 h2 h3⟩
  · exact fun st bs h => ⟨stay_unpack_pack h, fun h1 h2 => stay_roundtrip h h1 h2⟩
  · exact fun k bs h => ⟨keycard_unpack_pack h, fun ht => keycard_roundtrip h ht⟩

theorem claim_C1_amended_witness :
    Room.unpack (roomOk.pack.getD []) = roomOk :=
  (claim_C1_amended.1 roomOk (roomOk.pack.getD []) (by decide)).2 (by decide)

/-- C5: `_next_id` scans every record regardless of status and returns the
maximum of the id attribute plus one: the result exceeds every present id,
and it is `1` (empty maximum 0) or some present id plus one; on the empty
store it is `1`, and on a store holding ids `{3, 7, 2}` (any statuses,
any order of those three records) it is `8`. -/
theorem claim_C5 :
    (∀ (α : Type) (store : List α) (attr : α → Nat),
      (∀ r ∈ store, attr r + 1 ≤ next_id store attr) ∧
      (next_id store attr = 1 ∨ ∃ r ∈ store, next_id store attr = attr r + 1)) ∧
    next_id ([] : List Room) Room.room_id = 1 ∧
    (∀ r1 r2 r3 : Room, r1.room_id = 3 → r2.room_id = 7 → r3.room_id = 2 →
      next_id [r1, r2, r3] Room.room_id = 8) := by
  refine ⟨fun α store attr => ⟨?_, ?_⟩, rfl, ?_⟩
  · intro r hr
    have := foldl_max_mem_le attr hr 0
    unfold next_id
    omega
  · rcases foldl_max_eq_init_or_mem attr store 0 with h | ⟨r, hr, h⟩
    · left; unfold next_id; omega
    · right; exact ⟨r, hr, by unfold next_id; omega⟩
  · intro r1 r2 r3 h1 h2 h3
    simp [next_id, h1, h2, h3]

theorem claim_C5_witness :
    next_id [roomOk] Room.room_id = 2 ∧ next_id [roomCex, roomOk] Room.room_id = 2 := by
  have h := (claim_C5.1 Room [roomOk] Room.room_id).2
  rcases h with h | ⟨r, hr, h⟩
  · exact absurd h (by decide)
  · constructor
    · have : r = roomOk := by
        rcases List.mem_singleton.mp hr with rfl
        rfl
      rw [h, this]; rfl
    · decide

/-- C6: `append` writes at slot index `length()` (by definition of
`append_slot`), after which `length()` has grown by exactly one and
`readAt (length() - 1)` returns exactly the written bytes (hence the
record, decoded); every previously complete slot reads back unchanged, so
no existing slot is reused.  Instantiated for `Room`, the decoded
read-back is the packed record's decoding. -/
theorem claim_C6 (file : List Nat) (size : Nat) (data : List Nat)
    (hs : 0 < size) (hd : data.length = size) :
    append_slot file size data = write_at file size (store_len file size) data ∧
    store_len (append_slot file size data) size = store_len file size + 1 ∧
    read_at (append_slot file size data) size
      (store_len (append_slot file size data) size - 1) = some data ∧
    (∀ i < store_len file size, read_at (append_slot file size data) size i =
      read_at file size i) ∧
    (∀ (r : Room) (bs : List Nat), r.pack = some bs → fits_text r.room_type 20 →
      (read_at (append_slot file ROOM_SIZE bs) ROOM_SIZE
        (store_len file ROOM_SIZE)).map Room.unpack = some r) := by
  refine ⟨rfl, store_len_append_slot file data hs hd, ?_, ?_, ?_⟩
  · rw [store_len_append_slot file data hs hd, Nat.add_sub_cancel]
    exact read_at_append_slot file data hs hd
  · intro i hi
    exact read_at_append_slot_frame file data hs hi
  · intro r bs hp ht
    rw [read_at_append_slot file bs (by norm_num [ROOM_SIZE]) (Room.pack_length hp)]
    rw [Option.map_some', room_roundtrip hp ht]

theorem claim_C6_witness :
    store_len (append_slot [] 64 (List.replicate 64 0)) 64 = 1 ∧
    read_at (append_slot [] 64 (List.replicate 64 0)) 64 0 = some (List.replicate 64 0) := by
  have h := claim_C6 [] 64 (List.replicate 64 0) (by norm_num) (by simp)
  have hz : store_len ([] : List Nat) 64 = 0 := rfl
  refine ⟨by rw [h.2.1, hz], ?_⟩
  have h2 := h.2.2.1
  rw [h.2.1, hz, Nat.add_sub_cancel] at h2
  exact h2

/-- C9: `delete_stay` fails exactly when no stay with the id exists (any
status); on success it only rewrites the found stay's slot, setting its
status to 9 and refreshing `updated_at`, and the room, guest and keycard
stores are untouched. -/
theorem claim_C9 (s : HState) (sid now : Nat) :
    ((delete_stay s sid now).1 = false ↔ ¬ ∃ st ∈ s.stays, st.stay_id = sid) ∧
    ((delete_stay s sid now).1 = false → (delete_stay s sid now).2 = s) ∧
    ((delete_stay s sid now).2).rooms = s.rooms ∧
    ((delete_stay s sid now).2).guests = s.guests ∧
    ((delete_stay s sid now).2).keycards = s.keycards ∧
    (∀ idx st, find_first (fun x => x.stay_id == sid) s.stays = some (idx, st) →
      delete_stay s sid now =
        (true, { s with stays := s.stays.set idx { st with status := STAY_DELETED, updated_at := now } })) := by
  unfold delete_stay
  rcases hf : find_first (fun x => x.stay_id == sid) s.stays with _ | ⟨idx, st⟩ <;> rw [hf]
  · have hnone : ∀ x ∈ s.stays, ¬ x.stay_id = sid := by
      intro x hx
      have := find_first_eq_none.mp hf x hx
      simpa using this
    refine ⟨?_, fun _ => rfl, rfl, rfl, rfl, ?_⟩
    · constructor
      · rintro - ⟨x, hx, hid⟩
        exact hnone x hx hid
      · intro _; rfl
    · intro idx st h
      simp at h
  · obtain ⟨hmem, hp⟩ := find_first_mem hf
    refine ⟨?_, ?_, rfl, rfl, rfl, ?_⟩
    · constructor
      · intro h; exact absurd h (by simp)
      · intro hne
        exact absurd ⟨st, hmem, by simpa using hp⟩ hne
    · intro h; exact absurd h (by simp)
    · intro idx2 st3 h
      injection h with h
      injection h with h1 h2
      subst h1; subst h2
      rfl

theorem claim_C9_witness :
    (delete_stay HState.empty 1 7).1 = false ↔ ¬ ∃ st ∈ (HState.empty).stays, st.stay_id = 1 :=
  (claim_C9 HState.empty 1 7).1

/-- C8: when a room with the id exists (any status), `delete_room` finds
its first slot, rewrites only that slot with status `Deleted` and a fresh
`updated_at`, keeps the store length, keeps the record visible to
`get_rooms(include_deleted=true)` with status `Deleted`, hides it from
`get_rooms(include_deleted=false)`, and leaves the other stores alone. -/
theorem claim_C8 (s : HState) (rid now : Nat)
    (h : ∃ r ∈ s.rooms, r.room_id = rid) :
    ∃ idx room, find_first (fun r => r.room_id == rid) s.rooms = some (idx, room) ∧
      room.room_id = rid ∧
      delete_room s rid now =
        (true, { s with rooms := s.rooms.set idx { room with status := ROOM_DELETED, updated_at := now } }) ∧
      ((delete_room s rid now).2).rooms.length = s.rooms.length ∧
      (∃ r2 ∈ get_rooms (delete_room s rid now).2 true, r2.room_id = rid ∧ r2.status = ROOM_DELETED) ∧
      (∀ r2 ∈ get_rooms (delete_room s rid now).2 false, r2 ≠ { room with status := ROOM_DELETED, updated_at := now }) ∧
      ((delete_room s rid now).2).guests = s.guests ∧
      ((delete_room s rid now).2).stays = s.stays ∧
      ((delete_room s rid now).2).keycards = s.keycards := by
  obtain ⟨r, hr, hid⟩ := h
  have hpred : (fun r2 : Room => r2.room_id == rid) r = true := by simp [hid]
  obtain ⟨idx, room, hf⟩ :=
    @find_first_of_mem Room (fun r2 : Room => r2.room_id == rid) s.rooms r hr hpred
  obtain ⟨hmem, hp⟩ := find_first_mem hf
  have hroomid : room.room_id = rid := by simpa using hp
  have hidx : s.rooms[idx]? = some room := (find_first_spec hf).1
  have hlt : idx < s.rooms.length := (List.getElem?_eq_some_iff.mp hidx).1
  have hd : delete_room s rid now =
      (true, { s with rooms := s.rooms.set idx { room with status := ROOM_DELETED, updated_at := now } }) := by
    unfold delete_room
    rw [hf]
  refine ⟨idx, room, hf, hroomid, hd, ?_, ?_, ?_, ?_, ?_, ?_⟩
  · rw [hd]
    exact List.length_set ..
  · rw [hd]
    refine ⟨{ room with status := ROOM_DELETED, updated_at := now }, ?_, hroomid, rfl⟩
    unfold get_rooms
    rw [List.mem_filter]
    refine ⟨?_, by simp⟩
    exact List.getElem?_mem (List.getElem?_set_self hlt)
  · rw [hd]
    intro r2 hr2 heq
    have := (List.mem_filter.mp hr2).2
    rw [heq] at this
    simp [ROOM_DELETED] at this
  · rw [hd]
  · rw [hd]
  · rw [hd]

theorem claim_C8_witness :
    ((delete_room ⟨[roomOk], [], [], []⟩ 1 9).2).rooms.length = 1 := by
  obtain ⟨idx, room, -, -, -, hlen, -⟩ :=
    claim_C8 ⟨[roomOk], [], [], []⟩ 1 9 ⟨roomOk, by simp, rfl⟩
  simpa using hlen

/-- C2: `checkin` refuses — returning `none` and leaving the whole state
untouched (no Stay or Keycard appended, no Room changed) — whenever no
room with the id has status Vacant/Occupied, or no guest with the id is
Active, or the found room is Occupied, or the card count is negative or
exceeds the found room's `max_cards`. -/
theorem claim_C2 (s : HState) (gid rid : Nat) (date : List Nat) (cards : Int) (now : Nat)
    (h : (¬ ∃ r ∈ s.rooms, r.room_id = rid ∧
            (r.status = ROOM_ACTIVE_VACANT ∨ r.status = ROOM_ACTIVE_OCCUPIED)) ∨
         (¬ ∃ g ∈ s.guests, g.guest_id = gid ∧ g.status = GUEST_ACTIVE) ∨
         (∃ i room, find_first (fun r => r.room_id == rid &&
            (r.status == ROOM_ACTIVE_VACANT || r.status == ROOM_ACTIVE_OCCUPIED)) s.rooms =
              some (i, room) ∧ room.status = ROOM_ACTIVE_OCCUPIED) ∨
         cards < 0 ∨
         (∃ i room, find_first (fun r => r.room_id == rid &&
            (r.status == ROOM_ACTIVE_VACANT || r.status == ROOM_ACTIVE_OCCUPIED)) s.rooms =
              some (i, room) ∧ (room.max_cards : Int) < cards)) :
    checkin s gid rid date cards now = (none, s) := by
  rcases hrp : find_first (fun r => r.room_id == rid &&
      (r.status == ROOM_ACTIVE_VACANT || r.status == ROOM_ACTIVE_OCCUPIED)) s.rooms
    with _ | ⟨r_idx, room⟩
  · unfold checkin
    rw [hrp]
  · rcases hgp : find_first (fun g => g.guest_id == gid && g.status == GUEST_ACTIVE) s.guests
      with _ | ⟨g_idx, g⟩
    · unfold checkin
      rw [hrp, hgp]
    · have hfail : room.status = ROOM_ACTIVE_OCCUPIED ∨ cards < 0 ∨ (room.max_cards : Int) < cards := by
        rcases h with h | h | ⟨i, room2, hf2, hocc⟩ | h | ⟨i, room2, hf2, hmax⟩
        · obtain ⟨hmem, hp⟩ := find_first_mem hrp
          simp only [Bool.and_eq_true, beq_iff_eq, Bool.or_eq_true] at hp
          exact absurd ⟨room, hmem, hp.1, hp.2⟩ h
        · obtain ⟨hmem, hp⟩ := find_first_mem hgp
          simp only [Bool.and_eq_true, beq_iff_eq] at hp
          exact absurd ⟨g, hmem, hp.1, hp.2⟩ h
        · rw [hrp] at hf2
          injection hf2 with hf2
          injection hf2 with h1 h2
          subst h1; subst h2
          exact Or.inl hocc
        · exact Or.inr (Or.inl h)
        · rw [hrp] at hf2
          injection hf2 with hf2
          injection hf2 with h1 h2
          subst h1; subst h2
          exact Or.inr (Or.inr hmax)
      unfold checkin
      rw [hrp, hgp]
      by_cases hocc : room.status = ROOM_ACTIVE_OCCUPIED
      · simp [hocc]
      · have hbad : cards < 0 ∨ (room.max_cards : Int) < cards := by
          rcases hfail with hfail | hfail
          · exact absurd hfail hocc
          · exact hfail
        simp only [beq_iff_eq, hocc, if_false]
        rcases hbad with hbad | hbad <;> simp [hbad]

theorem claim_C2_witness :
    checkin ⟨[roomOk], [], [], []⟩ 1 1 [50] (-1) 9 = (none, ⟨[roomOk], [], [], []⟩) :=
  claim_C2 ⟨[roomOk], [], [], []⟩ 1 1 [50] (-1) 9
    (Or.inr (Or.inr (Or.inr (Or.inl (by norm_num)))))

/-- C7: each of `update_room`, `update_guest`, `update_keycard` returns
absence exactly when no record with the id exists in any status, and
otherwise locates the first slot (ascending order) whose id matches —
regardless of status, so a soft-deleted record is found and mutated —
applies exactly the supplied fields, keeps the identity and `created_at`
fields even if supplied, refreshes `updated_at` to `now`, and rewrites the
same slot.  (There is no `update_stay` in the service.) -/
theorem claim_C7 :
    (∀ (s : HState) (rid : Nat) (p : RoomPatch) (now : Nat),
      ((update_room s rid p now).1 = none ↔ ¬ ∃ r ∈ s.rooms, r.room_id = rid) ∧
      ((update_room s rid p now).1 = none → (update_room s rid p now).2 = s) ∧
      (∀ idx room, find_first (fun r => r.room_id == rid) s.rooms = some (idx, room) →
        s.rooms[idx]? = some room ∧
        (∀ j < idx, ∀ y, s.rooms[j]? = some y → ¬ y.room_id = rid) ∧
        update_room s rid p now =
          (some { room_id := room.room_id, status := p.status.getD room.status, room_type := p.room_type.getD room.room_type, floor := p.floor.getD room.floor, capacity := p.capacity.getD room.capacity, max_cards := p.max_cards.getD room.max_cards, created_at := room.created_at, updated_at := now },
           { s with rooms := s.rooms.set idx { room_id := room.room_id, status := p.status.getD room.status, room_type := p.room_type.getD room.room_type, floor := p.floor.getD room.floor, capacity := p.capacity.getD room.capacity, max_cards := p.max_cards.getD room.max_cards, created_at := room.created_at, updated_at := now } }))) ∧
    (∀ (s : HState) (gid : Nat) (p : GuestPatch) (now : Nat),
      ((update_guest s gid p now).1 = none ↔ ¬ ∃ g ∈ s.guests, g.guest_id = gid) ∧
      ((update_guest s gid p now).1 = none → (update_guest s gid p now).2 = s) ∧
      (∀ idx g, find_first (fun x => x.guest_id == gid) s.guests = some (idx, g) →
        s.guests[idx]? = some g ∧
        (∀ j < idx, ∀ y, s.guests[j]? = some y → ¬ y.guest_id = gid) ∧
        update_guest s gid p now =
          (some { guest_id := g.guest_id, status := p.status.getD g.status, full_name := p.full_name.getD g.full_name, phone := p.phone.getD g.phone, id_no := p.id_no.getD g.id_no, created_at := g.created_at, updated_at := now },
           { s with guests := s.guests.set idx { guest_id := g.guest_id, status := p.status.getD g.status, full_name := p.full_name.getD g.full_name, phone := p.phone.getD g.phone, id_no := p.id_no.getD g.id_no, created_at := g.created_at, updated_at := now } }))) ∧
    (∀ (s : HState) (kid : Nat) (p : KeycardPatch) (now : Nat),
      ((update_keycard s kid p now).1 = none ↔ ¬ ∃ k ∈ s.keycards, k.keycard_id = kid) ∧
      ((update_keycard s kid p now).1 = none → (update_keycard s kid p now).2 = s) ∧
      (∀ idx k, find_first (fun x => x.keycard_id == kid) s.keycards = some (idx, k) →
        s.keycards[idx]? = some k ∧
        (∀ j < idx, ∀ y, s.keycards[j]? = some y → ¬ y.keycard_id = kid) ∧
        update_keycard s kid p now =
          (some { keycard_id := k.keycard_id, status := p.status.getD k.status, room_id := p.room_id.getD k.room_id, serial := p.serial.getD k.serial, created_at := k.created_at, updated_at := now },
           { s with keycards := s.keycards.set idx { keycard_id := k.keycard_id, status := p.status.getD k.status, room_id := p.room_id.getD k.room_id, serial := p.serial.getD k.serial, created_at := k.created_at, updated_at := now } }))) := by
  refine ⟨?_, ?_, ?_⟩
  · intro s rid p now
    rcases hf : find_first (fun r => r.room_id == rid) s.rooms with _ | ⟨idx, room⟩
    · have hnone : ∀ x ∈ s.rooms, ¬ x.room_id = rid := by
        intro x hx
        have := find_first_eq_none.mp hf x hx
        simpa using this
      refine ⟨?_, ?_, ?_⟩
      · unfold update_room
        rw [hf]
        constructor
        · rintro - ⟨x, hx, hid⟩
          exact hnone x hx hid
        · intro _; rfl
      · unfold update_room
        rw [hf]
        exact fun _ => rfl
      · intro idx room h
        rw [hf] at h
        exact absurd h (by simp)
    · obtain ⟨hmem, hp⟩ := find_first_mem hf
      have hid : room.room_id = rid := by simpa using hp
      refine ⟨?_, ?_, ?_⟩
      · unfold update_room
        rw [hf]
        constructor
        · intro h; exact absurd h (by simp)
        · intro hne
          exact absurd ⟨room, hmem, hid⟩ hne
      · unfold update_room
        rw [hf]
        intro h; exact absurd h (by simp)
      · intro idx2 room2 h
        rw [hf] at h
        injection h with h
        injection h with h1 h2
        subst h1; subst h2
        obtain ⟨hg, -, hfirst⟩ := find_first_spec hf
        refine ⟨hg, ?_, ?_⟩
        · intro j hj y hy
          have := hfirst j hj y hy
          simpa using this
        · unfold update_room
          rw [hf]
  · intro s gid p now
    rcases hf : find_first (fun x => x.guest_id == gid) s.guests with _ | ⟨idx, g⟩
    · have hnone : ∀ x ∈ s.guests, ¬ x.guest_id = gid := by
        intro x hx
        have := find_first_eq_none.mp hf x hx
        simpa using this
      refine ⟨?_, ?_, ?_⟩
      · unfold update_guest
        rw [hf]
        constructor
        · rintro - ⟨x, hx, hid⟩
          exact hnone x hx hid
        · intro _; rfl
      · unfold update_guest
        rw [hf]
        exact fun _ => rfl
      · intro idx g h
        rw [hf] at h
        exact absurd h (by simp)
    · obtain ⟨hmem, hp⟩ := find_first_mem hf
      have hid : g.guest_id = gid := by simpa using hp
      refine ⟨?_, ?_, ?_⟩
      · unfold update_guest
        rw [hf]
        constructor
        · intro h; exact absurd h (by simp)
        · intro hne
          exact absurd ⟨g, hmem, hid⟩ hne
      · unfold update_guest
        rw [hf]
        intro h; exact absurd h (by simp)
      · intro idx2 g2 h
        rw [hf] at h
        injection h with h
        injection h with h1 h2
        subst h1; subst h2
        obtain ⟨hg, -, hfirst⟩ := find_first_spec hf
        refine ⟨hg, ?_, ?_⟩
        · intro j hj y hy
          have := hfirst j hj y hy
          simpa using this
        · unfold update_guest
          rw [hf]
  · intro s kid p now
    rcases hf : find_first (fun x => x.keycard_id == kid) s.keycards with _ | ⟨idx, k⟩
    · have hnone : ∀ x ∈ s.keycards, ¬ x.keycard_id = kid := by
        intro x hx
        have := find_first_eq_none.mp hf x hx
        simpa using this
      refine ⟨?_, ?_, ?_⟩
      · unfold update_keycard
        rw [hf]
        constructor
        · rintro - ⟨x, hx, hid⟩
          exact hnone x hx hid
        · intro _; rfl
      · unfold update_keycard
        rw [hf]
        exact fun _ => rfl
      · intro idx k h
        rw [hf] at h
        exact absurd h (by simp)
    · obtain ⟨hmem, hp⟩ := find_first_mem hf
      have hid : k.keycard_id = kid := by simpa using hp
      refine ⟨?_, ?_, ?_⟩
      · unfold update_keycard
        rw [hf]
        constructor
        · intro h; exact absurd h (by simp)
        · intro hne
          exact absurd ⟨k, hmem, hid⟩ hne
      · unfold update_keycard
        rw [hf]
        intro h; exact absurd h (by simp)
      · intro idx2 k2 h
        rw [hf] at h
        injection h with h
        injection h with h1 h2
        subst h1; subst h2
        obtain ⟨hg, -, hfirst⟩ := find_first_spec hf
        refine ⟨hg, ?_, ?_⟩
        · intro j hj y hy
          have := hfirst j hj y hy
          simpa using this
        · unfold update_keycard
          rw [hf]

/-- A soft-deleted room, to witness that `update_room` still finds it. -/
def roomDel : Room :=
  { room_id := 1, status := 0, room_type := [83], floor := 2, capacity := 2,
    max_cards := 2, created_at := 5, updated_at := 6 }

theorem claim_C7_witness :
    update_room ⟨[roomDel], [], [], []⟩ 1 { floor := some 9 } 7 =
      (some { room_id := 1, status := 0, room_type := [83], floor := 9, capacity := 2, max_cards := 2, created_at := 5, updated_at := 7 },
       ⟨[{ room_id := 1, status := 0, room_type := [83], floor := 9, capacity := 2, max_cards := 2, created_at := 5, updated_at := 7 }], [], [], []⟩) := by
  have h := ((claim_C7.1 ⟨[roomDel], [], [], []⟩ 1 { floor := some 9 } 7).2.2 0 roomDel
    (by rfl)).2.2
  simpa [roomDel] using h

/-- C10: with a Vacant room of the id and an Active guest of the id (ids
unique among rooms), `checkin` with zero cards succeeds: it appends one
Open stay with `cards_issued = cards_returned = 0` and empty checkout
date, appends no keycards, and sets the room's slot to Occupied. -/
theorem claim_C10 (s : HState) (gid rid : Nat) (date : List Nat) (now : Nat)
    (h1 : (s.rooms.map Room.room_id).Nodup)
    (h2 : ∃ r ∈ s.rooms, r.room_id = rid ∧ r.status = ROOM_ACTIVE_VACANT)
    (h3 : ∃ g ∈ s.guests, g.guest_id = gid ∧ g.status = GUEST_ACTIVE) :
    ∃ idx room, find_first (fun r => r.room_id == rid &&
        (r.status == ROOM_ACTIVE_VACANT || r.status == ROOM_ACTIVE_OCCUPIED)) s.rooms =
          some (idx, room) ∧
      room.status = ROOM_ACTIVE_VACANT ∧
      checkin s gid rid date 0 now =
        (some { stay_id := next_id s.stays Stay.stay_id, status := STAY_OPEN, guest_id := gid, room_id := rid, checkin_date := date, checkout_date := [], cards_issued := 0, cards_returned := 0, updated_at := now },
         { rooms := s.rooms.set idx { room with status := ROOM_ACTIVE_OCCUPIED, updated_at := now },
           guests := s.guests,
           stays := s.stays ++ [{ stay_id := next_id s.stays Stay.stay_id, status := STAY_OPEN, guest_id := gid, room_id := rid, checkin_date := date, checkout_date := [], cards_issued := 0, cards_returned := 0, updated_at := now }],
           keycards := s.keycards }) := by
  obtain ⟨r, hr, hid, hst⟩ := h2
  have hpred : (fun x : Room => x.room_id == rid &&
      (x.status == ROOM_ACTIVE_VACANT || x.status == ROOM_ACTIVE_OCCUPIED)) r = true := by
    simp [hid, hst]
  obtain ⟨idx, room, hf⟩ := @find_first_of_mem Room
    (fun x : Room => x.room_id == rid &&
      (x.status == ROOM_ACTIVE_VACANT || x.status == ROOM_ACTIVE_OCCUPIED)) s.rooms r hr hpred
  obtain ⟨hmem, hp⟩ := find_first_mem hf
  have hpid : room.room_id = rid := by
    simp only [Bool.and_eq_true, beq_iff_eq] at hp
    exact hp.1
  have hreq : room = r := List.inj_on_of_nodup_map h1 hmem hr (by rw [hpid, hid])
  have hvac : room.status = ROOM_ACTIVE_VACANT := by rw [hreq]; exact hst
  obtain ⟨g, hg, hgid, hgst⟩ := h3
  have hgpred : (fun x : Guest => x.guest_id == gid && x.status == GUEST_ACTIVE) g = true := by
    simp [hgid, hgst]
  obtain ⟨j, g2, hgf⟩ := @find_first_of_mem Guest
    (fun x : Guest => x.guest_id == gid && x.status == GUEST_ACTIVE) s.guests g hg hgpred
  refine ⟨idx, room, hf, hvac, ?_⟩
  unfold checkin
  rw [hf, hgf]
  have hnocc : (room.status == ROOM_ACTIVE_OCCUPIED) = false := by
    rw [hvac]
    decide
  have hc2 : ¬ ((room.max_cards : Int) < 0) :=
    Int.not_lt.mpr (Int.natCast_nonneg _)
  simp only [hnocc, Bool.false_eq_true, if_false, decide_eq_true_eq]
  have hcond : (decide ((0 : Int) < 0) || decide ((room.max_cards : Int) < 0)) = false := by
    simp [hc2]
  rw [hcond]
  simp only [Bool.false_eq_true, if_false, Int.toNat_zero, List.range_zero, List.foldl_nil]

/-- An Active `Guest`, used as a concrete witness. -/
def guestOk : Guest :=
  { guest_id := 1, status := 1, full_name := [74, 83], phone := [48], id_no := [65],
    created_at := 5, updated_at := 6 }

theorem claim_C10_witness :
    (checkin ⟨[roomOk], [guestOk], [], []⟩ 1 1 [50] 0 9).1.isSome = true := by
  obtain ⟨idx, room, -, -, heq⟩ :=
    claim_C10 ⟨[roomOk], [guestOk], [], []⟩ 1 1 [50] 9 (by decide)
      ⟨roomOk, by simp, rfl, rfl⟩ ⟨guestOk, by simp, rfl, rfl⟩
  rw [heq]
  rfl

/-! ### Keycard-cascade lemmas for `checkout` -/

/-- The record rewrite performed by `delete_keycard` on the found slot. -/
def mark_kc (k : Keycard) (now : Nat) : Keycard :=
  { k with status := KEYCARD_DELETED, updated_at := now }

lemma HState.ext {a b : HState} (h1 : a.rooms = b.rooms) (h2 : a.guests = b.guests)
    (h3 : a.stays = b.stays) (h4 : a.keycards = b.keycards) : a = b := by
  cases a; cases b
  cases h1; cases h2; cases h3; cases h4
  rfl

lemma delete_keycard_frame (s : HState) (kid now : Nat) :
    ((delete_keycard s kid now).2).rooms = s.rooms ∧
    ((delete_keycard s kid now).2).guests = s.guests ∧
    ((delete_keycard s kid now).2).stays = s.stays := by
  unfold delete_keycard
  rcases h : find_first (fun x => x.keycard_id == kid) s.keycards with _ | ⟨i, k⟩ <;> rw [h] <;>
    exact ⟨rfl, rfl, rfl⟩

lemma map_set_eq_of_eq {α β : Type} (f : α → β) {l : List α} {i : Nat} {a : α} (b : α)
    (h : l[i]? = some a) (hf : f b = f a) : (l.set i b).map f = l.map f := by
  induction l generalizing i with
  | nil => simp at h
  | cons x t ih =>
      match i, h with
      | 0, h =>
          simp only [List.getElem?_cons_zero, Option.some.injEq] at h
          subst h
          simp [hf]
      | i + 1, h =>
          simp only [List.getElem?_cons_succ] at h
          simp [List.set_cons_succ, ih h]

lemma delete_keycard_ids (s : HState) (kid now : Nat) :
    ((delete_keycard s kid now).2).keycards.map Keycard.keycard_id =
      s.keycards.map Keycard.keycard_id := by
  unfold delete_keycard
  rcases h : find_first (fun x => x.keycard_id == kid) s.keycards with _ | ⟨i, k⟩ <;> rw [h]
  exact map_set_eq_of_eq Keycard.keycard_id _ (find_first_spec h).1 rfl

/-- List level: with distinct keycard ids, the find-first-then-set of a
soft delete equals a pointwise map over the list. -/
lemma del_first_eq_map (l : List Keycard) (kid now : Nat)
    (hnd : (l.map Keycard.keycard_id).Nodup) :
    (match find_first (fun x => x.keycard_id == kid) l with
     | none => l
     | some (i, k) => l.set i (mark_kc k now)) =
    l.map (fun k => if k.keycard_id = kid then mark_kc k now else k) := by
  induction l with
  | nil => rfl
  | cons a t ih =>
      have hndt : (t.map Keycard.keycard_id).Nodup := (List.nodup_cons.mp hnd).2
      have hnota : a.keycard_id ∉ t.map Keycard.keycard_id := (List.nodup_cons.mp hnd).1
      by_cases ha : a.keycard_id = kid
      · have hpa : (fun x : Keycard => x.keycard_id == kid) a = true := by simp [ha]
        simp only [find_first, hpa, if_true, List.set_cons_zero, List.map_cons, if_pos ha]
        congr 1
        have hne : ∀ k ∈ t, (if k.keycard_id = kid then mark_kc k now else k) = k := by
          intro k hk
          apply if_neg
          intro hkid
          have hm : k.keycard_id ∈ t.map Keycard.keycard_id := List.mem_map_of_mem _ hk
          rw [hkid, ← ha] at hm
          exact hnota hm
        rw [List.map_congr_left hne]; simp
      · have hpa : (fun x : Keycard => x.keycard_id == kid) a = false := by simp [ha]
        simp only [find_first, hpa, Bool.false_eq_true, if_false, List.map_cons, if_neg ha]
        rcases hf : find_first (fun x => x.keycard_id == kid) t with _ | ⟨i, k⟩
        · simp only [hf, Option.map_none']
          congr 1
          have hne : ∀ k ∈ t, (if k.keycard_id = kid then mark_kc k now else k) = k := by
            intro k hk
            apply if_neg
            simpa using find_first_eq_none.mp hf k hk
          rw [List.map_congr_left hne]; simp
        · simp only [hf, Option.map_some', List.set_cons_succ]
          congr 1
          have h := ih hndt
          rw [hf] at h
          exact h

/-- With distinct keycard ids, deleting by id rewrites exactly the records
carrying that id (at most one), expressed as a pointwise map. -/
lemma delete_keycard_keycards_of_nodup (s : HState) (kid now : Nat)
    (hnd : (s.keycards.map Keycard.keycard_id).Nodup) :
    ((delete_keycard s kid now).2).keycards =
      s.keycards.map (fun k => if k.keycard_id = kid then mark_kc k now else k) := by
  have h := del_first_eq_map s.keycards kid now hnd
  unfold delete_keycard
  rcases hf : find_first (fun x => x.keycard_id == kid) s.keycards with _ | ⟨i, k⟩ <;>
    rw [hf] at h <;> rw [hf]
  · exact h
  · exact h

/-- The checkout keycard loop leaves the room, guest and stay stores alone. -/
lemma checkout_fold_frame (ds : List Keycard) (now : Nat) :
    ∀ s : HState,
      ((ds.foldl (fun acc k => if k.status == KEYCARD_ACTIVE then
          (delete_keycard acc k.keycard_id now).2 else acc) s).rooms = s.rooms) ∧
      ((ds.foldl (fun acc k => if k.status == KEYCARD_ACTIVE then
          (delete_keycard acc k.keycard_id now).2 else acc) s).guests = s.guests) ∧
      ((ds.foldl (fun acc k => if k.status == KEYCARD_ACTIVE then
          (delete_keycard acc k.keycard_id now).2 else acc) s).stays = s.stays) := by
  induction ds with
  | nil => exact fun s => ⟨rfl, rfl, rfl⟩
  | cons d ds ih =>
      intro s
      rw [List.foldl_cons]
      by_cases hd : (d.status == KEYCARD_ACTIVE) = true
      · rw [if_pos hd]
        obtain ⟨h1, h2, h3⟩ := ih ((delete_keycard s d.keycard_id now).2)
        obtain ⟨g1, g2, g3⟩ := delete_keycard_frame s d.keycard_id now
        exact ⟨h1.trans g1, h2.trans g2, h3.trans g3⟩
      · rw [if_neg hd]
        exact ih s

/-- The checkout keycard loop, as a pointwise map: with distinct keycard
ids, a keycard is soft-deleted exactly when some loop element that was
snapshot-Active carries its id. -/
lemma checkout_fold_keycards (ds : List Keycard) (now : Nat) :
    ∀ s : HState, (s.keycards.map Keycard.keycard_id).Nodup →
      ((ds.foldl (fun acc k => if k.status == KEYCARD_ACTIVE then
          (delete_keycard acc k.keycard_id now).2 else acc) s).keycards) =
      s.keycards.map (fun k =>
        if ds.any (fun d => d.status == KEYCARD_ACTIVE && d.keycard_id == k.keycard_id) then
          mark_kc k now else k) := by
  induction ds with
  | nil =>
      intro s _
      simp only [List.foldl_nil, List.any_nil, Bool.false_eq_true, if_false]
      simp
  | cons d ds ih =>
      intro s hnd
      rw [List.foldl_cons]
      by_cases hd : (d.status == KEYCARD_ACTIVE) = true
      · rw [if_pos hd]
        have hids : ((delete_keycard s d.keycard_id now).2).keycards.map Keycard.keycard_id =
            s.keycards.map Keycard.keycard_id := delete_keycard_ids s d.keycard_id now
        have hnd1 : (((delete_keycard s d.keycard_id now).2).keycards.map
            Keycard.keycard_id).Nodup := by rw [hids]; exact hnd
        rw [ih ((delete_keycard s d.keycard_id now).2) hnd1,
          delete_keycard_keycards_of_nodup s d.keycard_id now hnd, List.map_map]
        apply List.map_congr_left
        intro k hk
        simp only [Function.comp]
        by_cases hkd : k.keycard_id = d.keycard_id
        · rw [if_pos hkd]
          have hproj : (mark_kc k now).keycard_id = k.keycard_id := rfl
          have hmm : mark_kc (mark_kc k now) now = mark_kc k now := rfl
          have hanyc : ((d :: ds).any (fun d2 => d2.status == KEYCARD_ACTIVE &&
              d2.keycard_id == k.keycard_id)) = true := by
            rw [List.any_cons, hd, beq_iff_eq.mpr hkd.symm]
            rfl
          rw [hproj, hmm, hanyc, if_pos rfl]
          exact ite_self _
        · rw [if_neg hkd]
          have hzd : (d.keycard_id == k.keycard_id) = false :=
            beq_eq_false_iff_ne.mpr (fun h => hkd h.symm)
          have hanyc : ((d :: ds).any (fun d2 => d2.status == KEYCARD_ACTIVE &&
              d2.keycard_id == k.keycard_id)) =
              (ds.any (fun d2 => d2.status == KEYCARD_ACTIVE && d2.keycard_id == k.keycard_id)) := by
            rw [List.any_cons, hzd, Bool.and_false, Bool.false_or]
          rw [hanyc]
      · rw [if_neg hd]
        rw [ih s hnd]
        apply List.map_congr_left
        intro k hk
        have hdf : (d.status == KEYCARD_ACTIVE) = false := by
          rcases Bool.eq_false_or_eq_true (d.status == KEYCARD_ACTIVE) with h | h
          · exact absurd h hd
          · exact h
        have hanyc : ((d :: ds).any (fun d2 => d2.status == KEYCARD_ACTIVE &&
            d2.keycard_id == k.keycard_id)) =
            (ds.any (fun d2 => d2.status == KEYCARD_ACTIVE && d2.keycard_id == k.keycard_id)) := by
          rw [List.any_cons, hdf, Bool.false_and, Bool.false_or]
        rw [hanyc]


/-- C3: `checkout` fails exactly when no Open stay with the id exists; on
success it closes the found stay (sets status Closed, the checkout date,
`cards_returned = max(cards_returned, cards_issued)`, fresh `updated_at`),
soft-deletes every currently-Active keycard whose `room_id` is the stay's
room (leaving all other keycards unchanged), and, if a room with that id
exists and is not Deleted, sets it back to Vacant; guests are untouched.
Keycard ids are assumed distinct (always true in service-reachable
states, where ids are allocated by `_next_id`). -/
theorem claim_C3 (s : HState) (sid : Nat) (date : List Nat) (now : Nat)
    (hnd : (s.keycards.map Keycard.keycard_id).Nodup) :
    ((checkout s sid date now).1 = false ↔
      ¬ ∃ st ∈ s.stays, st.stay_id = sid ∧ st.status = STAY_OPEN) ∧
    (∀ idx st, find_first (fun x => x.stay_id == sid && x.status == STAY_OPEN) s.stays =
        some (idx, st) →
      checkout s sid date now =
        (true,
         { rooms := (match find_first (fun r => r.room_id == st.room_id) s.rooms with
             | none => s.rooms
             | some (j, room) =>
                 if room.status != ROOM_DELETED then
                   s.rooms.set j { room with status := ROOM_ACTIVE_VACANT, updated_at := now }
                 else s.rooms),
           guests := s.guests,
           stays := s.stays.set idx { st with status := STAY_CLOSED, checkout_date := date, cards_returned := max st.cards_returned st.cards_issued, updated_at := now },
           keycards := s.keycards.map (fun k =>
             if k.status = KEYCARD_ACTIVE ∧ k.room_id = st.room_id then mark_kc k now
             else k) })) := by
  constructor
  · rcases hf : find_first (fun x => x.stay_id == sid && x.status == STAY_OPEN) s.stays
      with _ | ⟨i, st⟩
    · unfold checkout
      rw [hf]
      constructor
      · rintro - ⟨x, hx, h1, h2⟩
        have := find_first_eq_none.mp hf x hx
        simp [h1, h2] at this
      · intro _; rfl
    · unfold checkout
      rw [hf]
      obtain ⟨hmem, hp⟩ := find_first_mem hf
      simp only [Bool.and_eq_true, beq_iff_eq] at hp
      constructor
      · intro h; exact absurd h (by simp)
      · intro hne
        exact absurd ⟨st, hmem, hp.1, hp.2⟩ hne
  · intro idx st hf
    unfold checkout
    rw [hf]
    simp only []
    set st2 : Stay := { st with status := STAY_CLOSED, checkout_date := date, cards_returned := max st.cards_returned st.cards_issued, updated_at := now } with hst2
    set s1 : HState := { s with stays := s.stays.set idx st2 } with hs1
    set ds := get_keycards_by_room s1 st.room_id with hds
    set s2 := ds.foldl (fun acc k => if k.status == KEYCARD_ACTIVE then
      (delete_keycard acc k.keycard_id now).2 else acc) s1 with hs2
    have hfr := checkout_fold_frame ds now s1
    have hrooms : s2.rooms = s.rooms := hfr.1
    have hguests : s2.guests = s.guests := hfr.2.1
    have hstays : s2.stays = s.stays.set idx st2 := hfr.2.2
    have hnd1 : (s1.keycards.map Keycard.keycard_id).Nodup := hnd
    have hky0 := checkout_fold_keycards ds now s1 hnd1
    have hds_mem : ∀ d : Keycard, d ∈ ds ↔ (d ∈ s.keycards ∧
        (d.status != KEYCARD_DELETED) = true ∧ (d.room_id == st.room_id) = true) := by
      intro d
      rw [hds]
      unfold get_keycards_by_room get_keycards
      constructor
      · intro h
        obtain ⟨h1, h2⟩ := List.mem_filter.mp h
        obtain ⟨h3, h4⟩ := List.mem_filter.mp h1
        exact ⟨h3, by simpa using h4, h2⟩
      · rintro ⟨h1, h2, h3⟩
        exact List.mem_filter.mpr ⟨List.mem_filter.mpr ⟨h1, by simp [h2]⟩, h3⟩
    have hky : s2.keycards = s.keycards.map (fun k =>
        if k.status = KEYCARD_ACTIVE ∧ k.room_id = st.room_id then mark_kc k now else k) := by
      refine hky0.trans ?_
      apply List.map_congr_left
      intro k hk
      by_cases hcond : k.status = KEYCARD_ACTIVE ∧ k.room_id = st.room_id
      · rw [if_pos hcond]
        have hany : (ds.any fun d => d.status == KEYCARD_ACTIVE &&
            d.keycard_id == k.keycard_id) = true := by
          rw [List.any_eq_true]
          refine ⟨k, ?_, by simp [hcond.1]⟩
          refine (hds_mem k).mpr ⟨hk, ?_, ?_⟩
          · rw [hcond.1]
            decide
          · simp [hcond.2]
        rw [hany, if_pos rfl]
      · rw [if_neg hcond]
        have hany : (ds.any fun d => d.status == KEYCARD_ACTIVE &&
            d.keycard_id == k.keycard_id) = false := by
          refine Bool.eq_false_iff.mpr ?_
          intro hcontra
          rw [List.any_eq_true] at hcontra
          obtain ⟨d, hdm, hdp⟩ := hcontra
          obtain ⟨hdk, hdst, hdroom⟩ := (hds_mem d).mp hdm
          simp only [Bool.and_eq_true, beq_iff_eq] at hdp
          have hdk2 : d = k := List.inj_on_of_nodup_map hnd hdk hk hdp.2
          apply hcond
          constructor
          · rw [← hdk2]; exact hdp.1
          · rw [← hdk2]
            simpa using hdroom
        rw [hany]
        simp
    rcases hrf : find_first (fun r => r.room_id == st.room_id) s.rooms with _ | ⟨j, room⟩
    · rw [hrooms, hrf]
      exact congrArg (Prod.mk true) (HState.ext hrooms hguests hstays hky)
    · rw [hrooms, hrf]
      simp only []
      by_cases hro : (room.status != ROOM_DELETED) = true
      · rw [if_pos hro, if_pos hro]
        exact congrArg (Prod.mk true) (HState.ext rfl hguests hstays hky)
      · rw [if_neg hro, if_neg hro]
        exact congrArg (Prod.mk true) (HState.ext hrooms hguests hstays hky)

/-- The spec's scenario state: one STD room (`max_cards = 2`), one guest,
checked in with two issued keycards. -/
def sC3 : HState :=
  (checkin ((add_guest ((add_room HState.empty [83, 84, 68] 2 2 2 100).2)
    [74] [48] [65] 101).2) 1 1 [50, 48] 2 102).2

theorem claim_C3_witness :
    checkout sC3 1 [51] 103 =
      (true,
       { rooms := sC3.rooms.set 0 { room_id := 1, status := ROOM_ACTIVE_VACANT, room_type := [83, 84, 68], floor := 2, capacity := 2, max_cards := 2, created_at := 100, updated_at := 103 },
         guests := sC3.guests,
         stays := sC3.stays.set 0 { stay_id := 1, status := STAY_CLOSED, guest_id := 1, room_id := 1, checkin_date := [50, 48], checkout_date := [51], cards_issued := 2, cards_returned := 2, updated_at := 103 },
         keycards := sC3.keycards.map (fun k =>
           if k.status = KEYCARD_ACTIVE ∧ k.room_id = 1 then mark_kc k 103 else k) }) := by
  have h := (claim_C3 sC3 1 [51] 103 (by decide)).2 0
    { stay_id := 1, status := STAY_OPEN, guest_id := 1, room_id := 1, checkin_date := [50, 48], checkout_date := [], cards_issued := 2, cards_returned := 0, updated_at := 102 }
    (by decide)
  rw [h]
  decide

/-! ### Reachability and the occupancy invariant (C4) -/

/-- Number of Open stays recorded for a room. -/
def open_count (stays : List Stay) (rid : Nat) : Nat :=
  stays.countP (fun st => st.room_id == rid && st.status == STAY_OPEN)

/-- Every state reachable from empty stores by service operations.  With
`restrict = true`, `update_room` may never supply a `status` field; with
`restrict = false` every call is allowed. -/
inductive Reach : Bool → HState → Prop where
  | empty (b : Bool) : Reach b HState.empty
  | step_add_room {b : Bool} {s : HState} (rt : List Nat) (fl cap mx now : Nat) :
      Reach b s → Reach b (add_room s rt fl cap mx now).2
  | step_update_room {b : Bool} {s : HState} (rid : Nat) (p : RoomPatch) (now : Nat) :
      Reach b s → (b = true → p.status = none) → Reach b (update_room s rid p now).2
  | step_delete_room {b : Bool} {s : HState} (rid now : Nat) :
      Reach b s → Reach b (delete_room s rid now).2
  | step_add_guest {b : Bool} {s : HState} (fn ph idn : List Nat) (now : Nat) :
      Reach b s → Reach b (add_guest s fn ph idn now).2
  | step_update_guest {b : Bool} {s : HState} (gid : Nat) (p : GuestPatch) (now : Nat) :
      Reach b s → Reach b (update_guest s gid p now).2
  | step_delete_guest {b : Bool} {s : HState} (gid now : Nat) :
      Reach b s → Reach b (delete_guest s gid now).2
  | step_add_keycard {b : Bool} {s : HState} (rid : Nat) (serial : List Nat) (now : Nat) :
      Reach b s → Reach b (add_keycard s rid serial now).2
  | step_update_keycard {b : Bool} {s : HState} (kid : Nat) (p : KeycardPatch) (now : Nat) :
      Reach b s → Reach b (update_keycard s kid p now).2
  | step_delete_keycard {b : Bool} {s : HState} (kid now : Nat) :
      Reach b s → Reach b (delete_keycard s kid now).2
  | step_checkin {b : Bool} {s : HState} (gid rid : Nat) (date : List Nat)
      (cards : Int) (now : Nat) : Reach b s → Reach b (checkin s gid rid date cards now).2
  | step_checkout {b : Bool} {s : HState} (sid : Nat) (date : List Nat) (now : Nat) :
      Reach b s → Reach b (checkout s sid date now).2
  | step_delete_stay {b : Bool} {s : HState} (sid now : Nat) :
      Reach b s → Reach b (delete_stay s sid now).2

/-- The inductive invariant behind room-occupancy exclusivity: room ids
are distinct, each room has at most one Open stay, and a room carrying an
Open stay exists and is never Vacant. -/
def RoomInv (s : HState) : Prop :=
  (s.rooms.map Room.room_id).Nodup ∧
  (∀ rid : Nat, open_count s.stays rid ≤ 1) ∧
  (∀ st ∈ s.stays, st.status = STAY_OPEN →
    st.room_id ∈ s.rooms.map Room.room_id ∧
    ∀ r ∈ s.rooms, r.room_id = st.room_id → ¬ r.status = ROOM_ACTIVE_VACANT)

lemma RoomInv_congr {s s2 : HState} (hr : s2.rooms = s.rooms) (hst : s2.stays = s.stays)
    (h : RoomInv s) : RoomInv s2 := by
  unfold RoomInv at h ⊢
  rw [hr, hst]
  exact h

lemma update_guest_frame (s : HState) (gid : Nat) (p : GuestPatch) (now : Nat) :
    ((update_guest s gid p now).2).rooms = s.rooms ∧
    ((update_guest s gid p now).2).stays = s.stays ∧
    ((update_guest s gid p now).2).keycards = s.keycards := by
  unfold update_guest
  rcases h : find_first (fun x => x.guest_id == gid) s.guests with _ | ⟨i, g⟩ <;> rw [h] <;>
    exact ⟨rfl, rfl, rfl⟩

lemma delete_guest_frame (s : HState) (gid now : Nat) :
    ((delete_guest s gid now).2).rooms = s.rooms ∧
    ((delete_guest s gid now).2).stays = s.stays ∧
    ((delete_guest s gid now).2).keycards = s.keycards := by
  unfold delete_guest
  rcases h : find_first (fun x => x.guest_id == gid) s.guests with _ | ⟨i, g⟩ <;> rw [h] <;>
    exact ⟨rfl, rfl, rfl⟩

lemma update_keycard_frame (s : HState) (kid : Nat) (p : KeycardPatch) (now : Nat) :
    ((update_keycard s kid p now).2).rooms = s.rooms ∧
    ((update_keycard s kid p now).2).stays = s.stays := by
  unfold update_keycard
  rcases h : find_first (fun x => x.keycard_id == kid) s.keycards with _ | ⟨i, k⟩ <;> rw [h] <;>
    exact ⟨rfl, rfl⟩

/-- The keycard loop of a successful check-in touches only the keycards. -/
lemma checkin_fold_frame (n : Nat) (rid gid now : Nat) :
    ∀ s : HState,
      (((List.range n).foldl (fun acc i =>
        (add_keycard acc rid (kc_serial rid gid now i) now).2) s).rooms = s.rooms) ∧
      (((List.range n).foldl (fun acc i =>
        (add_keycard acc rid (kc_serial rid gid now i) now).2) s).guests = s.guests) ∧
      (((List.range n).foldl (fun acc i =>
        (add_keycard acc rid (kc_serial rid gid now i) now).2) s).stays = s.stays) := by
  have hgen : ∀ (is : List Nat) (s : HState),
      ((is.foldl (fun acc i =>
        (add_keycard acc rid (kc_serial rid gid now i) now).2) s).rooms = s.rooms) ∧
      ((is.foldl (fun acc i =>
        (add_keycard acc rid (kc_serial rid gid now i) now).2) s).guests = s.guests) ∧
      ((is.foldl (fun acc i =>
        (add_keycard acc rid (kc_serial rid gid now i) now).2) s).stays = s.stays) := by
    intro is
    induction is with
    | nil => exact fun s => ⟨rfl, rfl, rfl⟩
    | cons x t ih =>
        intro s
        rw [List.foldl_cons]
        obtain ⟨h1, h2, h3⟩ := ih ((add_keycard s rid (kc_serial rid gid now x) now).2)
        exact ⟨h1, h2, h3⟩
  exact fun s => hgen (List.range n) s

/-- In a list with distinct `attr` values, any member of `l.set i b` that
carries the replaced slot's attribute value must be `b` itself. -/
lemma mem_set_unique_attr {α : Type} (attr : α → Nat) {l : List α} {i : Nat} {a b r : α}
    (hnd : (l.map attr).Nodup) (hi : l[i]? = some a) (hb : attr b = attr a)
    (hr : r ∈ l.set i b) (hattr : attr r = attr a) : r = b := by
  obtain ⟨j, hj⟩ := List.mem_iff_getElem?.mp hr
  have hilen : i < l.length := (List.getElem?_eq_some_iff.mp hi).1
  by_cases hij : j = i
  · subst hij
    rw [List.getElem?_set_self hilen] at hj
    exact ((Option.some.injEq _ _).mp hj).symm
  · rw [List.getElem?_set_ne (fun h => hij h.symm)] at hj
    have hmapi : (l.map attr)[i]? = some (attr a) := by
      rw [List.getElem?_map, hi]
      rfl
    have hmapj : (l.map attr)[j]? = some (attr a) := by
      rw [List.getElem?_map, hj]
      simp [hattr]
    have : i = j := List.getElem?_inj (by simpa using hilen) hnd (hmapi.trans hmapj.symm)
    exact absurd this.symm hij

/-- Replacing a matched slot with another record satisfying the predicate
leaves `find_first` pointing at the same index, now holding the new record. -/
lemma find_first_set {α : Type} {p : α → Bool} {l : List α} {i : Nat} {a : α} (b : α)
    (hf : find_first p l = some (i, a)) (hb : p b = true) :
    find_first p (l.set i b) = some (i, b) := by
  induction l generalizing i with
  | nil => simp [find_first] at hf
  | cons x t ih =>
      by_cases hx : p x = true
      · simp only [find_first, hx, if_true, Option.some.injEq, Prod.mk.injEq] at hf
        obtain ⟨rfl, rfl⟩ := hf
        simp [find_first, List.set_cons_zero, hb]
      · have hxf : p x = false := by
          rcases Bool.eq_false_or_eq_true (p x) with h | h
          · exact absurd h hx
          · exact h
        simp only [find_first, hxf, Bool.false_eq_true, if_false] at hf
        rcases hft : find_first p t with _ | ⟨j, y⟩
        · rw [hft] at hf
          simp at hf
        · rw [hft] at hf
          simp only [Option.map_some', Option.some.injEq, Prod.mk.injEq] at hf
          obtain ⟨rfl, rfl⟩ := hf
          simp only [List.set_cons_succ, find_first, hxf, Bool.false_eq_true, if_false,
            ih hft, Option.map_some']

lemma RoomInv_empty : RoomInv HState.empty := by
  refine ⟨by simp [HState.empty], ?_, ?_⟩
  · intro rid
    simp [open_count, HState.empty]
  · intro st hst
    exact absurd hst (by simp [HState.empty])

lemma RoomInv_add_room (s : HState) (rt : List Nat) (fl cap mx now : Nat)
    (h : RoomInv s) : RoomInv (add_room s rt fl cap mx now).2 := by
  obtain ⟨h1, h2, h3⟩ := h
  have hfresh : ∀ x ∈ s.rooms.map Room.room_id, x ≠ next_id s.rooms Room.room_id := by
    intro x hx
    obtain ⟨r, hr, hxr⟩ := List.mem_map.mp hx
    have := foldl_max_mem_le Room.room_id hr 0
    unfold next_id
    omega
  show RoomInv { s with rooms := s.rooms ++ [{ room_id := next_id s.rooms Room.room_id, status := ROOM_ACTIVE_VACANT, room_type := rt, floor := fl, capacity := cap, max_cards := mx, created_at := now, updated_at := now }] }
  set newRoom : Room := { room_id := next_id s.rooms Room.room_id, status := ROOM_ACTIVE_VACANT, room_type := rt, floor := fl, capacity := cap, max_cards := mx, created_at := now, updated_at := now } with hnew
  refine ⟨?_, h2, ?_⟩
  · show ((s.rooms ++ [newRoom]).map Room.room_id).Nodup
    rw [List.map_append]
    refine List.nodup_append.mpr ⟨h1, List.nodup_singleton _, ?_⟩
    intro x hx hmem
    have hx2 : x = newRoom.room_id := by simpa using hmem
    exact hfresh x hx (by rw [hx2])
  · intro st hst hopen
    have hst2 : st ∈ s.stays := hst
    obtain ⟨hin, hall⟩ := h3 st hst2 hopen
    constructor
    · show st.room_id ∈ (s.rooms ++ [newRoom]).map Room.room_id
      rw [List.map_append]
      exact List.mem_append.mpr (Or.inl hin)
    · intro r hr hid
      rcases List.mem_append.mp hr with hr | hr
      · exact hall r hr hid
      · have hr2 : r = newRoom := by simpa using hr
        subst hr2
        exfalso
        apply hfresh st.room_id hin
        rw [← hid]

lemma RoomInv_update_room (s : HState) (rid : Nat) (p : RoomPatch) (now : Nat)
    (hp : p.status = none) (h : RoomInv s) : RoomInv (update_room s rid p now).2 := by
  unfold update_room
  rcases hf : find_first (fun r => r.room_id == rid) s.rooms with _ | ⟨idx, room⟩ <;> rw [hf]
  · exact h
  obtain ⟨h1, h2, h3⟩ := h
  obtain ⟨hi, hpred, -⟩ := find_first_spec hf
  simp only []
  set room2 : Room := { room_id := room.room_id, status := p.status.getD room.status, room_type := p.room_type.getD room.room_type, floor := p.floor.getD room.floor, capacity := p.capacity.getD room.capacity, max_cards := p.max_cards.getD room.max_cards, created_at := room.created_at, updated_at := now } with hroom2
  have hids : (s.rooms.set idx room2).map Room.room_id = s.rooms.map Room.room_id :=
    map_set_eq_of_eq Room.room_id room2 hi rfl
  refine ⟨?_, h2, ?_⟩
  · show ((s.rooms.set idx room2).map Room.room_id).Nodup
    rw [hids]
    exact h1
  · intro st hst hopen
    have hst2 : st ∈ s.stays := hst
    obtain ⟨hin, hall⟩ := h3 st hst2 hopen
    constructor
    · show st.room_id ∈ (s.rooms.set idx room2).map Room.room_id
      rw [hids]
      exact hin
    · intro r hr hid
      have hr2 : r ∈ s.rooms.set idx room2 := hr
      rcases List.mem_or_eq_of_mem_set hr2 with hmem | heq
      · exact hall r hmem hid
      · subst heq
        have hstat : room2.status = room.status := by
          show p.status.getD room.status = room.status
          rw [hp]
          rfl
        rw [hstat]
        exact hall room (List.getElem?_mem hi) hid

lemma RoomInv_delete_room (s : HState) (rid now : Nat) (h : RoomInv s) :
    RoomInv (delete_room s rid now).2 := by
  unfold delete_room
  rcases hf : find_first (fun r => r.room_id == rid) s.rooms with _ | ⟨idx, room⟩ <;> rw [hf]
  · exact h
  obtain ⟨h1, h2, h3⟩ := h
  obtain ⟨hi, hpred, -⟩ := find_first_spec hf
  simp only []
  set room2 : Room := { room with status := ROOM_DELETED, updated_at := now } with hroom2
  have hids : (s.rooms.set idx room2).map Room.room_id = s.rooms.map Room.room_id :=
    map_set_eq_of_eq Room.room_id room2 hi rfl
  refine ⟨?_, h2, ?_⟩
  · show ((s.rooms.set idx room2).map Room.room_id).Nodup
    rw [hids]
    exact h1
  · intro st hst hopen
    have hst2 : st ∈ s.stays := hst
    obtain ⟨hin, hall⟩ := h3 st hst2 hopen
    constructor
    · show st.room_id ∈ (s.rooms.set idx room2).map Room.room_id
      rw [hids]
      exact hin
    · intro r hr hid
      have hr2 : r ∈ s.rooms.set idx room2 := hr
      rcases List.mem_or_eq_of_mem_set hr2 with hmem | heq
      · exact hall r hmem hid
      · subst heq
        show ¬ ROOM_DELETED = ROOM_ACTIVE_VACANT
        decide

lemma countP_set_le {α : Type} (p : α → Bool) {a : α} (ha : p a = false) :
    ∀ (l : List α) (i : Nat), (l.set i a).countP p ≤ l.countP p := by
  intro l
  induction l with
  | nil => intro i; simp
  | cons x t ih =>
      intro i
      match i with
      | 0 =>
          rw [List.set_cons_zero, List.countP_cons_of_neg p t (by simp [ha])]
          by_cases hx : p x = true
          · rw [List.countP_cons_of_pos p t hx]
            omega
          · rw [List.countP_cons_of_neg p t hx]
      | i + 1 =>
          rw [List.set_cons_succ]
          by_cases hx : p x = true
          · rw [List.countP_cons_of_pos p _ hx, List.countP_cons_of_pos p t hx]
            exact Nat.add_le_add_right (ih i) 1
          · rw [List.countP_cons_of_neg p _ hx, List.countP_cons_of_neg p t hx]
            exact ih i

lemma countP_set_of_true {α : Type} (p : α → Bool) {l : List α} {i : Nat} {a : α} (b : α)
    (hi : l[i]? = some a) (hpa : p a = true) (hpb : p b = false) :
    (l.set i b).countP p + 1 = l.countP p := by
  induction l generalizing i with
  | nil => simp at hi
  | cons x t ih =>
      match i, hi with
      | 0, hi =>
          simp only [List.getElem?_cons_zero, Option.some.injEq] at hi
          subst hi
          rw [List.set_cons_zero, List.countP_cons_of_neg p t (by simp [hpb]),
            List.countP_cons_of_pos p t hpa]
      | i + 1, hi =>
          simp only [List.getElem?_cons_succ] at hi
          rw [List.set_cons_succ]
          by_cases hx : p x = true
          · rw [List.countP_cons_of_pos p _ hx, List.countP_cons_of_pos p t hx]
            have := ih hi
            omega
          · rw [List.countP_cons_of_neg p _ hx, List.countP_cons_of_neg p t hx]
            exact ih hi

lemma RoomInv_delete_stay (s : HState) (sid now : Nat) (h : RoomInv s) :
    RoomInv (delete_stay s sid now).2 := by
  unfold delete_stay
  rcases hf : find_first (fun x => x.stay_id == sid) s.stays with _ | ⟨idx, st0⟩ <;> rw [hf]
  · exact h
  obtain ⟨h1, h2, h3⟩ := h
  obtain ⟨hi, -, -⟩ := find_first_spec hf
  obtain ⟨hlt, hival⟩ := List.getElem?_eq_some_iff.mp hi
  refine ⟨h1, ?_, ?_⟩
  · intro rid
    unfold open_count
    show (s.stays.set idx { st0 with status := STAY_DELETED, updated_at := now }).countP
      (fun st => st.room_id == rid && st.status == STAY_OPEN) ≤ 1
    have hp9 : (fun st => st.room_id == rid && st.status == STAY_OPEN)
        { st0 with status := STAY_DELETED, updated_at := now } = false := by
      simp [STAY_DELETED, STAY_OPEN]
    have hle := countP_set_le (fun st => st.room_id == rid && st.status == STAY_OPEN) hp9
      s.stays idx
    have hb := h2 rid
    unfold open_count at hb
    omega
  · intro st hst hopen
    rcases List.mem_or_eq_of_mem_set hst with hst | hst
    · exact h3 st hst hopen
    · subst hst
      simp [STAY_DELETED, STAY_OPEN] at hopen

lemma RoomInv_checkin (s : HState) (gid rid : Nat) (date : List Nat) (cards : Int)
    (now : Nat) (h : RoomInv s) : RoomInv (checkin s gid rid date cards now).2 := by
  unfold checkin
  rcases hrp : find_first (fun r => r.room_id == rid &&
      (r.status == ROOM_ACTIVE_VACANT || r.status == ROOM_ACTIVE_OCCUPIED)) s.rooms
    with _ | ⟨r_idx, room⟩ <;>
    rcases hgp : find_first (fun g => g.guest_id == gid && g.status == GUEST_ACTIVE) s.guests
      with _ | ⟨g_idx, g⟩ <;> rw [hrp, hgp] <;> simp only []
  · exact h
  · exact h
  · exact h
  by_cases hocc : (room.status == ROOM_ACTIVE_OCCUPIED) = true
  · rw [if_pos hocc]
    exact h
  rw [if_neg hocc]
  by_cases hcards : (decide (cards < 0) || decide ((room.max_cards : Int) < cards)) = true
  · rw [if_pos hcards]
    exact h
  rw [if_neg hcards]
  simp only []
  obtain ⟨h1, h2, h3⟩ := h
  obtain ⟨hi, hpred, -⟩ := find_first_spec hrp
  simp only [Bool.and_eq_true, beq_iff_eq, Bool.or_eq_true] at hpred
  have hrid : room.room_id = rid := hpred.1
  have hvac : room.status = ROOM_ACTIVE_VACANT := by
    rcases hpred.2 with hv | hv
    · exact hv
    · exact absurd (beq_iff_eq.mpr hv) hocc
  set stay : Stay := { stay_id := next_id s.stays Stay.stay_id, status := STAY_OPEN, guest_id := gid, room_id := rid, checkin_date := date, checkout_date := [], cards_issued := cards.toNat, cards_returned := 0, updated_at := now } with hstay
  set s1 : HState := { s with stays := s.stays ++ [stay] } with hs1
  set sf := (List.range cards.toNat).foldl
    (fun acc i => (add_keycard acc rid (kc_serial rid gid now i) now).2) s1 with hsf
  set room2 : Room := { room with status := ROOM_ACTIVE_OCCUPIED, updated_at := now } with hroom2
  obtain ⟨hfr, hfg, hfs⟩ := checkin_fold_frame cards.toNat rid gid now s1
  have hzero : open_count s.stays rid = 0 := by
    by_contra hnz
    have hpos : 0 < open_count s.stays rid := Nat.pos_of_ne_zero hnz
    obtain ⟨st', hmem, hp'⟩ := List.countP_pos.mp hpos
    simp only [Bool.and_eq_true, beq_iff_eq] at hp'
    have := (h3 st' hmem hp'.2).2 room (List.getElem?_mem hi) (by rw [hrid, hp'.1])
    exact this hvac
  refine ⟨?_, ?_, ?_⟩
  · show ((sf.rooms.set r_idx room2).map Room.room_id).Nodup
    rw [hfr]
    show ((s.rooms.set r_idx room2).map Room.room_id).Nodup
    rw [map_set_eq_of_eq Room.room_id room2 hi rfl]
    exact h1
  · intro rid2
    show open_count sf.stays rid2 ≤ 1
    rw [hfs]
    show open_count (s.stays ++ [stay]) rid2 ≤ 1
    unfold open_count
    rw [List.countP_append]
    have hb := h2 rid2
    unfold open_count at hb
    by_cases hps : ((fun st => st.room_id == rid2 && st.status == STAY_OPEN) stay) = true
    · rw [List.countP_cons_of_pos (fun st => st.room_id == rid2 && st.status == STAY_OPEN)
        ([] : List Stay) hps, List.countP_nil]
      have heq : rid = rid2 := by
        rw [hstay] at hps
        simp only [Bool.and_eq_true, beq_iff_eq] at hps
        exact hps.1
      subst heq
      unfold open_count at hzero
      omega
    · rw [List.countP_cons_of_neg (fun st => st.room_id == rid2 && st.status == STAY_OPEN)
        ([] : List Stay) hps, List.countP_nil]
      omega
  · intro st' hst' hopen
    have hst2 : st' ∈ sf.stays := hst'
    rw [hfs] at hst2
    have hst3 : st' ∈ s.stays ++ [stay] := hst2
    rcases List.mem_append.mp hst3 with hmem | hmem
    · obtain ⟨hin, hall⟩ := h3 st' hmem hopen
      have hstne : st'.room_id ≠ rid := by
        intro hctr
        have hpos : 0 < open_count s.stays rid :=
          List.countP_pos.mpr ⟨st', hmem, by simp [hctr, hopen]⟩
        omega
      constructor
      · show st'.room_id ∈ (sf.rooms.set r_idx room2).map Room.room_id
        rw [hfr]
        show st'.room_id ∈ (s.rooms.set r_idx room2).map Room.room_id
        rw [map_set_eq_of_eq Room.room_id room2 hi rfl]
        exact hin
      · intro r hr hidr
        have hr2 : r ∈ s.rooms.set r_idx room2 := by
          have hr3 : r ∈ sf.rooms.set r_idx room2 := hr
          rw [hfr] at hr3
          exact hr3
        rcases List.mem_or_eq_of_mem_set hr2 with hmem2 | heq
        · exact hall r hmem2 hidr
        · subst heq
          exfalso
          apply hstne
          rw [← hidr]
          show room.room_id = rid
          exact hrid
    · have hstay' : st' = stay := by simpa using hmem
      subst hstay'
      constructor
      · show stay.room_id ∈ (sf.rooms.set r_idx room2).map Room.room_id
        rw [hfr]
        show stay.room_id ∈ (s.rooms.set r_idx room2).map Room.room_id
        rw [map_set_eq_of_eq Room.room_id room2 hi rfl]
        show rid ∈ s.rooms.map Room.room_id
        exact List.mem_map.mpr ⟨room, List.getElem?_mem hi, hrid⟩
      · intro r hr hidr
        have hr2 : r ∈ s.rooms.set r_idx room2 := by
          have hr3 : r ∈ sf.rooms.set r_idx room2 := hr
          rw [hfr] at hr3
          exact hr3
        have hidr2 : r.room_id = room.room_id := by
          rw [hidr]
          show rid = room.room_id
          exact hrid.symm
        have hreq := @mem_set_unique_attr Room Room.room_id s.rooms r_idx room room2 r
          h1 hi rfl hr2 hidr2
        rw [hreq]
        show ¬ ROOM_ACTIVE_OCCUPIED = ROOM_ACTIVE_VACANT
        decide

lemma RoomInv_checkout (s : HState) (sid : Nat) (date : List Nat) (now : Nat)
    (h : RoomInv s) : RoomInv (checkout s sid date now).2 := by
  unfold checkout
  rcases hf : find_first (fun x => x.stay_id == sid && x.status == STAY_OPEN) s.stays
    with _ | ⟨idx, st0⟩ <;> rw [hf]
  · exact h
  simp only []
  obtain ⟨h1, h2, h3⟩ := h
  obtain ⟨hi, hpred0, -⟩ := find_first_spec hf
  simp only [Bool.and_eq_true, beq_iff_eq] at hpred0
  set st2 : Stay := { st0 with status := STAY_CLOSED, checkout_date := date, cards_returned := max st0.cards_returned st0.cards_issued, updated_at := now } with hst2
  set s1 : HState := { s with stays := s.stays.set idx st2 } with hs1
  set ds := get_keycards_by_room s1 st0.room_id with hds
  set s2 := ds.foldl (fun acc k => if k.status == KEYCARD_ACTIVE then
    (delete_keycard acc k.keycard_id now).2 else acc) s1 with hs2
  have hfr2 := checkout_fold_frame ds now s1
  have hrooms : s2.rooms = s.rooms := hfr2.1
  have hguests : s2.guests = s.guests := hfr2.2.1
  have hstays : s2.stays = s.stays.set idx st2 := hfr2.2.2
  have hp2f : ∀ rid : Nat,
      ((fun st => st.room_id == rid && st.status == STAY_OPEN) st2) = false := by
    intro rid
    rw [hst2]
    simp [STAY_CLOSED, STAY_OPEN]
  have hcle : ∀ rid : Nat, open_count (s.stays.set idx st2) rid ≤ open_count s.stays rid :=
    fun rid => countP_set_le (fun st : Stay => st.room_id == rid && st.status == STAY_OPEN)
      (hp2f rid) s.stays idx
  have hzero : open_count (s.stays.set idx st2) st0.room_id = 0 := by
    have hpa : ((fun st => st.room_id == st0.room_id && st.status == STAY_OPEN) st0) = true := by
      simp [hpred0.2]
    have hone := countP_set_of_true
      (fun st => st.room_id == st0.room_id && st.status == STAY_OPEN) st2 hi hpa
      (hp2f st0.room_id)
    have hb := h2 st0.room_id
    unfold open_count at hb ⊢
    omega
  have hclosed : ∀ st', st' = st2 → ¬ st'.status = STAY_OPEN := by
    intro st' he
    rw [he, hst2]
    simp [STAY_CLOSED, STAY_OPEN]
  rcases hrf : find_first (fun r => r.room_id == st0.room_id) s2.rooms with _ | ⟨j, roomf⟩ <;>
    rw [hrf] <;> simp only []
  · refine ⟨?_, ?_, ?_⟩
    · show (s2.rooms.map Room.room_id).Nodup
      rw [hrooms]
      exact h1
    · intro rid
      show open_count s2.stays rid ≤ 1
      rw [hstays]
      exact le_trans (hcle rid) (h2 rid)
    · intro st' hst' hopen
      have hst3 : st' ∈ s.stays.set idx st2 := by
        have hold : st' ∈ s2.stays := hst'
        rw [hstays] at hold
        exact hold
      rcases List.mem_or_eq_of_mem_set hst3 with hmem | heq
      · obtain ⟨hin, hall⟩ := h3 st' hmem hopen
        constructor
        · show st'.room_id ∈ s2.rooms.map Room.room_id
          rw [hrooms]
          exact hin
        · intro r hr hidr
          have hr2 : r ∈ s.rooms := by
            have hold : r ∈ s2.rooms := hr
            rw [hrooms] at hold
            exact hold
          exact hall r hr2 hidr
      · exact absurd hopen (hclosed st' heq)
  · obtain ⟨hjs, hjpred, -⟩ := find_first_spec hrf
    have hj : s.rooms[j]? = some roomf := by
      rw [← hrooms]
      exact hjs
    have hjid : roomf.room_id = st0.room_id := by simpa using hjpred
    by_cases hro : (roomf.status != ROOM_DELETED) = true
    · rw [if_pos hro]
      set roomV : Room := { roomf with status := ROOM_ACTIVE_VACANT, updated_at := now }
        with hroomV
      refine ⟨?_, ?_, ?_⟩
      · show ((s2.rooms.set j roomV).map Room.room_id).Nodup
        rw [hrooms, map_set_eq_of_eq Room.room_id roomV hj rfl]
        exact h1
      · intro rid
        show open_count s2.stays rid ≤ 1
        rw [hstays]
        exact le_trans (hcle rid) (h2 rid)
      · intro st' hst' hopen
        have hst3 : st' ∈ s.stays.set idx st2 := by
          have hold : st' ∈ s2.stays := hst'
          rw [hstays] at hold
          exact hold
        rcases List.mem_or_eq_of_mem_set hst3 with hmem | heq
        · obtain ⟨hin, hall⟩ := h3 st' hmem hopen
          have hstne : st'.room_id ≠ st0.room_id := by
            intro hctr
            have hpos : 0 < open_count (s.stays.set idx st2) st0.room_id :=
              List.countP_pos.mpr ⟨st', hst3, by simp [hctr, hopen]⟩
            omega
          constructor
          · show st'.room_id ∈ (s2.rooms.set j roomV).map Room.room_id
            rw [hrooms, map_set_eq_of_eq Room.room_id roomV hj rfl]
            exact hin
          · intro r hr hidr
            have hr2 : r ∈ s.rooms.set j roomV := by
              have hold : r ∈ s2.rooms.set j roomV := hr
              rw [hrooms] at hold
              exact hold
            rcases List.mem_or_eq_of_mem_set hr2 with hmem2 | heq2
            · exact hall r hmem2 hidr
            · subst heq2
              exfalso
              apply hstne
              rw [← hidr]
              show roomf.room_id = st0.room_id
              exact hjid
        · exact absurd hopen (hclosed st' heq)
    · rw [if_neg hro]
      refine ⟨?_, ?_, ?_⟩
      · show (s2.rooms.map Room.room_id).Nodup
        rw [hrooms]
        exact h1
      · intro rid
        show open_count s2.stays rid ≤ 1
        rw [hstays]
        exact le_trans (hcle rid) (h2 rid)
      · intro st' hst' hopen
        have hst3 : st' ∈ s.stays.set idx st2 := by
          have hold : st' ∈ s2.stays := hst'
          rw [hstays] at hold
          exact hold
        rcases List.mem_or_eq_of_mem_set hst3 with hmem | heq
        · obtain ⟨hin, hall⟩ := h3 st' hmem hopen
          constructor
          · show st'.room_id ∈ s2.rooms.map Room.room_id
            rw [hrooms]
            exact hin
          · intro r hr hidr
            have hr2 : r ∈ s.rooms := by
              have hold : r ∈ s2.rooms := hr
              rw [hrooms] at hold
              exact hold
            exact hall r hr2 hidr
        · exact absurd hopen (hclosed st' heq)

/-- Inductive core: every state reachable without status-patching
`update_room` calls satisfies the occupancy invariant. -/
lemma reach_RoomInv {b : Bool} {s : HState} (h : Reach b s) : b = true → RoomInv s := by
  induction h with
  | empty => exact fun _ => RoomInv_empty
  | step_add_room rt fl cap mx now hr ih =>
      exact fun hb => RoomInv_add_room _ rt fl cap mx now (ih hb)
  | step_update_room rid p now hr hcond ih =>
      exact fun hb => RoomInv_update_room _ rid p now (hcond hb) (ih hb)
  | step_delete_room rid now hr ih =>
      exact fun hb => RoomInv_delete_room _ rid now (ih hb)
  | step_add_guest fn ph idn now hr ih =>
      intro hb
      exact RoomInv_congr rfl rfl (ih hb)
  | @step_update_guest s gid p now hr ih =>
      intro hb
      have hfr := update_guest_frame s gid p now
      exact RoomInv_congr hfr.1 hfr.2.1 (ih hb)
  | @step_delete_guest s gid now hr ih =>
      intro hb
      have hfr := delete_guest_frame s gid now
      exact RoomInv_congr hfr.1 hfr.2.1 (ih hb)
  | step_add_keycard rid serial now hr ih =>
      intro hb
      exact RoomInv_congr rfl rfl (ih hb)
  | @step_update_keycard s kid p now hr ih =>
      intro hb
      have hfr := update_keycard_frame s kid p now
      exact RoomInv_congr hfr.1 hfr.2 (ih hb)
  | @step_delete_keycard s kid now hr ih =>
      intro hb
      have hfr := delete_keycard_frame s kid now
      exact RoomInv_congr hfr.1 hfr.2.2 (ih hb)
  | step_checkin gid rid date cards now hr ih =>
      exact fun hb => RoomInv_checkin _ gid rid date cards now (ih hb)
  | step_checkout sid date now hr ih =>
      exact fun hb => RoomInv_checkout _ sid date now (ih hb)
  | step_delete_stay sid now hr ih =>
      exact fun hb => RoomInv_delete_stay _ sid now (ih hb)

/-- C4 (amended): (1) in every state reachable from the empty stores by
service operations in which `update_room` is never given a `status` field,
each room has at most one Open stay; (2) unconditionally, after any
successful `checkin`, a second `checkin` on the same room — any guest, any
card count — returns `None` and leaves the state unchanged. -/
theorem claim_C4_amended :
    (∀ s : HState, Reach true s → ∀ rid : Nat, open_count s.stays rid ≤ 1) ∧
    (∀ (s : HState) (gid rid : Nat) (date : List Nat) (cards : Int) (now : Nat)
       (st : Stay) (s2 : HState), checkin s gid rid date cards now = (some st, s2) →
      ∀ (gid2 : Nat) (date2 : List Nat) (cards2 : Int) (now2 : Nat),
        checkin s2 gid2 rid date2 cards2 now2 = (none, s2)) := by
  constructor
  · intro s hs rid
    exact (reach_RoomInv hs rfl).2.1 rid
  · intro s gid rid date cards now st s2 hck gid2 date2 cards2 now2
    unfold checkin at hck
    rcases hrp : find_first (fun r => r.room_id == rid &&
        (r.status == ROOM_ACTIVE_VACANT || r.status == ROOM_ACTIVE_OCCUPIED)) s.rooms
      with _ | ⟨r_idx, room⟩ <;>
      rcases hgp : find_first (fun g => g.guest_id == gid && g.status == GUEST_ACTIVE) s.guests
        with _ | ⟨g_idx, g⟩ <;> rw [hrp, hgp] at hck <;> simp only [] at hck
    · simp at hck
    · simp at hck
    · simp at hck
    by_cases hocc : (room.status == ROOM_ACTIVE_OCCUPIED) = true
    · rw [if_pos hocc] at hck
      simp at hck
    rw [if_neg hocc] at hck
    by_cases hcards : (decide (cards < 0) || decide ((room.max_cards : Int) < cards)) = true
    · rw [if_pos hcards] at hck
      simp at hck
    rw [if_neg hcards] at hck
    set stay : Stay := { stay_id := next_id s.stays Stay.stay_id, status := STAY_OPEN, guest_id := gid, room_id := rid, checkin_date := date, checkout_date := [], cards_issued := cards.toNat, cards_returned := 0, updated_at := now } with hstay
    set s1 : HState := { s with stays := s.stays ++ [stay] } with hs1
    set sf := (List.range cards.toNat).foldl
      (fun acc i => (add_keycard acc rid (kc_serial rid gid now i) now).2) s1 with hsf
    set room2 : Room := { room with status := ROOM_ACTIVE_OCCUPIED, updated_at := now } with hroom2
    injection hck with hck1 hck2
    have hs2 : s2 = { sf with rooms := sf.rooms.set r_idx room2 } := hck2.symm
    have hfr := (checkin_fold_frame cards.toNat rid gid now s1).1
    have hrooms2 : s2.rooms = s.rooms.set r_idx room2 := by
      rw [hs2]
      show sf.rooms.set r_idx room2 = s.rooms.set r_idx room2
      rw [hfr]
    have hp2 : ((fun r => r.room_id == rid &&
        (r.status == ROOM_ACTIVE_VACANT || r.status == ROOM_ACTIVE_OCCUPIED)) room2) = true := by
      have hpred := (find_first_mem hrp).2
      simp only [Bool.and_eq_true, beq_iff_eq, Bool.or_eq_true] at hpred
      simp [hroom2, hpred.1, ROOM_ACTIVE_OCCUPIED]
    have hf2 : find_first (fun r => r.room_id == rid &&
        (r.status == ROOM_ACTIVE_VACANT || r.status == ROOM_ACTIVE_OCCUPIED)) s2.rooms =
        some (r_idx, room2) := by
      rw [hrooms2]
      exact find_first_set room2 hrp hp2
    unfold checkin
    rw [hf2]
    rcases hgp2 : find_first (fun g => g.guest_id == gid2 && g.status == GUEST_ACTIVE) s2.guests
      with _ | ⟨j2, g2⟩ <;> rw [hgp2] <;> simp only []
    rfl

/-- The five-call sequence defeating the invariant: add a room and guest,
check in, re-vacate the occupied room through `update_room(status := 1)`,
check in again. -/
def cexS1 : HState := (add_room HState.empty [83] 2 2 2 0).2
def cexS2 : HState := (add_guest cexS1 [74] [48] [65] 0).2
def cexS3 : HState := (checkin cexS2 1 1 [50] 0 0).2
def cexS4 : HState := (update_room cexS3 1 { status := some ROOM_ACTIVE_VACANT } 0).2
def cexS5 : HState := (checkin cexS4 1 1 [50] 0 0).2

/-- C4 (counterexample): the state after the five service calls above is
reachable by domain-service operations, yet room 1 carries two Open stays
— `update_room` accepts a `status` field (only `room_id`/`created_at` are
blocked), so it can re-vacate an occupied room and let a second check-in
through. -/
theorem claim_C4_counterexample :
    Reach false cexS5 ∧ open_count cexS5.stays 1 = 2 := by
  constructor
  · exact Reach.step_checkin 1 1 [50] 0 0
      (Reach.step_update_room 1 { status := some ROOM_ACTIVE_VACANT } 0
        (Reach.step_checkin 1 1 [50] 0 0
          (Reach.step_add_guest [74] [48] [65] 0
            (Reach.step_add_room [83] 2 2 2 0 (Reach.empty false))))
        (fun hcontra => Bool.noConfusion hcontra))
  · decide

theorem claim_C4_amended_witness :
    checkin cexS3 1 1 [51] 0 5 = (none, cexS3) :=
  claim_C4_amended.2 cexS2 1 1 [50] 0 0
    { stay_id := 1, status := STAY_OPEN, guest_id := 1, room_id := 1, checkin_date := [50], checkout_date := [], cards_issued := 0, cards_returned := 0, updated_at := 0 }
    cexS3 (by decide) 1 [51] 0 5

end Hotel
